import Mathlib

/-
  Verification of the trivia-bot question pipeline against its specification.

  Shallow embedding of the repository's JavaScript sources:
  - `Part000` embeds src/unnamed/part_000 (validateQuestion, sanitizeStr,
    seededPrng/xorshift32, shuffleWithSeed, coerceAndRandomize, safeJsonScan);
  - `Part003` embeds src/unnamed/part_003 (mulberry32, shuffleInPlace,
    finalizeChoices, validate, poolPush, extractJson);
  - `TriviaJs` embeds src/functions/api/trivia.js (the request handler:
    per-client lock, generation attempt loop with its inline validation
    chain, dictionary checks, deduplication checks, and the fallback bank).

  Modelling conventions:
  - JS dynamic values reaching the data model are `JVal` (strings, numbers as
    exact rationals, undefined/null, and an opaque `other` for objects that the
    embedded code never inspects).  JS numbers are IEEE doubles; every number
    the embedded paths actually compute with is an integer below 2^53 (seeds,
    indexes), where double arithmetic is exact, so `Int`/`Rat` is faithful.
  - JS strings are UTF-16; all strings in the repository and in the concrete
    inputs below are ASCII, where `String`'s code points agree with UTF-16
    units (`.length`, `.slice`, `indexOf` agree).
  - `toLowerCase` is modelled per-character (`Char.toLower`), which agrees
    with JS on ASCII (the only alphabet the sources and inputs use).
-/

namespace JsModel

/-- A JavaScript value as it can appear in a question-shaped object.  Arrays
appear only in the `choices` field and are modelled there as
`Option (List JVal)` (`none` = not an array).  `other` stands for any object
value; the embedded code only ever checks such values for truthiness. -/
inductive JVal where
  | str (s : String)
  | num (v : Rat)
  | undefv
  | other
deriving DecidableEq, Repr

/-- A question-shaped JS object: the fields that the repository's validators,
randomizers and handlers read.  A missing field reads as `undefv`. -/
structure JQuestion where
  question : JVal
  choices : Option (List JVal)
  correct_index : JVal
  explanation : JVal
  headword : JVal
  mode : JVal
  answer_text : JVal
  topic_key : JVal
  subject_matter : JVal
deriving DecidableEq, Repr

/-- The whitespace class used by JS `String.prototype.trim` and by the `\s`
regex class (ASCII part plus NBSP; the exotic Unicode spaces never occur in
the repository's data). -/
def jsSpaceChar (c : Char) : Bool :=
  c == ' ' || c == '\t' || c == '\n' || c == '\r' || c == '\x0b' || c == '\x0c' || c == ' '

/-- JS `s.trim()` on the underlying character list. -/
def jsTrimList (l : List Char) : List Char :=
  ((l.dropWhile jsSpaceChar).reverse.dropWhile jsSpaceChar).reverse

/-- JS `s.trim()`. -/
def jsTrim (s : String) : String := ⟨jsTrimList s.data⟩

/-- JS `s.toLowerCase()` (per-character; exact on ASCII). -/
def jsToLower (s : String) : String := ⟨s.data.map Char.toLower⟩

/-- JS truthiness of a `JVal` (`""`, `0` and `undefined` are falsy). -/
def truthy (v : JVal) : Bool :=
  match v with
  | .str s => s ≠ ""
  | .num r => r ≠ 0
  | .undefv => false
  | .other => true

/-- JS `String(v)` for the values the embedded code converts: strings stay,
integer numbers render in decimal, `undefined`/objects as JS renders them.
(Non-integer number rendering is not modelled precisely; no embedded path
converts a non-integer number to a string.) -/
def jvalToString (v : JVal) : String :=
  match v with
  | .str s => s
  | .num r => if r.den = 1 then toString r.num else toString r
  | .undefv => "undefined"
  | .other => "[object Object]"

/-- JS `String(v || "")`: falsy values render as the empty string. -/
def jsOrEmptyToString (v : JVal) : String :=
  if truthy v then jvalToString v else ""

/-- JS `arr[idx]` where `idx` is an arbitrary JS value: an element for an
integer index in bounds, `undefined` otherwise (as for `arr[-1]`, `arr[1.5]`
and non-numeric keys). -/
def jsIndexJV (cs : List JVal) (idx : JVal) : JVal :=
  match idx with
  | .num r =>
    if r.den = 1 ∧ 0 ≤ r.num ∧ r.num < cs.length then cs.getD r.num.toNat .undefv else .undefv
  | _ => .undefv

/-- JS `Array.prototype.findIndex` with an explicit start index accumulator. -/
def findIdxAux (f : α → Bool) : List α → Nat → Option Nat
  | [], _ => none
  | a :: t, i => if f a then some i else findIdxAux f t (i + 1)

/-- JS `arr.findIndex(f)`: the first matching index, `-1` if none. -/
def jsFindIndex (f : α → Bool) (l : List α) : Int :=
  match findIdxAux f l 0 with
  | some n => (n : Int)
  | none => -1

/-- JS `hay.includes(sub)` (substring containment). -/
def containsSubstr (hay sub : String) : Bool :=
  (List.range (hay.data.length + 1)).any (fun i => sub.data.isPrefixOf (hay.data.drop i))

/-- JS `s.slice(0, n)` for a nonnegative `n`. -/
def takeStr (s : String) (n : Nat) : String := ⟨s.data.take n⟩

/-- Swap two list positions (the JS destructuring swap
`[a[i], a[j]] = [a[j], a[i]]` when both indexes are in bounds). -/
def listSwap (l : List α) (i j : Nat) : List α :=
  match l[i]?, l[j]? with
  | some xi, some xj => (l.set i xj).set j xi
  | _, _ => l

end JsModel

namespace Part000
/-!  Embedding of src/unnamed/part_000 (a trivia.js iteration with xorshift32
seeded shuffling, `coerceAndRandomize`, `validateQuestion`, `safeJsonScan`). -/

open JsModel

/-- One step of the xorshift32 generator inside `seededPrng`: the three lines
`x ^= x << 13; x >>>= 0`, `x ^= x >> 17; x >>>= 0`, `x ^= x << 5; x >>>= 0`
on a 32-bit state.  `<<` truncates mod 2^32 (`>>> 0` reads the pattern back
as unsigned); the middle line's `x >> 17` is the sign-propagating shift: when
bit 31 of the state is set it fills the top 17 bits of the result with ones
(the pattern `x >>> 17 | 0xffff8000`), otherwise it equals the zero-fill
shift. -/
def xorshift32Step (x : Nat) : Nat :=
  let x1 := (x ^^^ (x <<< 13)) % 4294967296
  let x2 := x1 ^^^ (if x1 < 2147483648 then x1 >>> 17 else x1 >>> 17 ||| 4294934528)
  (x2 ^^^ (x2 <<< 5)) % 4294967296

/-- The initial xorshift32 state: `(seed >>> 0) || 1` (`ToUint32` of the seed,
replaced by 1 when zero). -/
def seededPrngInit (seed : Int) : Nat :=
  let u := (seed % 4294967296).toNat
  if u = 0 then 1 else u

/-- The loop body of `shuffleWithSeed`, from the current index `i+1` down to 1.
Each draw is `x / 0xffffffff` scaled by `(i + 2)` and floored; the quotient
`j = x * (i + 2) / 4294967295` reproduces `Math.floor(rnd() * (i + 2))`
exactly at the in-bounds/out-of-bounds boundary (`j = i + 2` iff the draw is
the maximal state `0xffffffff`, i.e. `rnd()` returned exactly `1.0`).  The
out-of-bounds branch reproduces what the JS destructuring swap against the
missing element `a[a.length]` would do — `a[i+1]` becomes `undefined`
(`none`) and the old `a[i+1]` is appended, growing the array — but the
generator never reaches the all-ones state (`xorshift32Step_ne_top`), so the
branch is dead code kept for faithfulness. -/
def xsShuffleAux : List (Option α) → Nat → Nat → List (Option α)
  | a, _, 0 => a
  | a, x, Nat.succ i =>
    let x' := xorshift32Step x
    let j := x' * (i + 2) / 4294967295
    if j < a.length then xsShuffleAux (listSwap a (i + 1) j) x' i
    else xsShuffleAux ((a.set (i + 1) none) ++ [a.getD (i + 1) none]) x' i

/-- `shuffleWithSeed(arr, seed)`: copy the array and run the seeded
Fisher-Yates loop.  Entries are `Option α` so a JS `undefined` hole would be
representable; `shuffleWithSeed_perm` proves the result is in fact always a
permutation of `arr.map some`. -/
def shuffleWithSeed (arr : List α) (seed : Int) : List (Option α) :=
  let a := arr.map some
  match arr.length with
  | 0 => a
  | Nat.succ n => xsShuffleAux a (seededPrngInit seed) n

/-- `sanitizeStr(s, fallback)`: the trimmed string when `s` is a string with
nonempty trim, else the fallback. -/
def sanitizeStr (v : JVal) (fallback : String) : String :=
  match v with
  | .str s => if jsTrim s ≠ "" then jsTrim s else fallback
  | _ => fallback

/-- `validateQuestion(q)`: `null` (modelled `none`) when valid, else the
diagnostic string.  The `none` input models a null/non-object candidate. -/
def validateQuestion : Option JQuestion → Option String
  | none => some "Empty/invalid object"
  | some q =>
    match q.question with
    | .str s =>
      if jsTrim s = "" then some "Missing question"
      else
        match q.choices with
        | none => some "Need at least 2 choices"
        | some cs =>
          if cs.length < 2 then some "Need at least 2 choices"
          else if ¬ (cs.all fun c => match c with | .str t => jsTrim t ≠ "" | _ => false)
            then some "All choices must be strings"
          else
            match q.correct_index with
            | .num r =>
              if r.den ≠ 1 then some "correct_index must be integer"
              else if r.num < 0 ∨ (cs.length : Int) ≤ r.num then some "correct_index out of bounds"
              else
                match q.explanation with
                | .str _ => none
                | _ => some "Missing explanation"
            | _ => some "correct_index must be integer"
    | _ => some "Missing question"

/-- The sanitized choices list built at the top of `coerceAndRandomize`:
`(Array.isArray(q.choices) ? q.choices.map(c => sanitizeStr(c)) : []).filter(Boolean)`. -/
def sanitizedChoices (q : JQuestion) : List String :=
  ((match q.choices with
    | some xs => xs.map (fun c => sanitizeStr c "")
    | none => []).filter (fun s => s ≠ ""))

/-- The coerced `correct_index` of `coerceAndRandomize`:
`Number.isInteger(q.correct_index) ? q.correct_index : 0`. -/
def coerceCorrectIndexIn (q : JQuestion) : Int :=
  match q.correct_index with
  | .num r => if r.den = 1 then r.num else 0
  | _ => 0

/-- `correctText = originalChoices[cq.correct_index]` (`undefined`, i.e.
`none`, when the coerced index is out of bounds). -/
def coerceCorrectText (q : JQuestion) : Option String :=
  if 0 ≤ coerceCorrectIndexIn q ∧ coerceCorrectIndexIn q < ((sanitizedChoices q).length : Int)
  then some ((sanitizedChoices q).getD (coerceCorrectIndexIn q).toNat "")
  else none

/-- `shuffled = shuffleWithSeed(originalChoices, seed)`. -/
def coerceShuffled (q : JQuestion) (seed : Int) : List (Option String) :=
  shuffleWithSeed (sanitizedChoices q) seed

/-- `newCorrectIndex = shuffled.findIndex(x => x === correctText)`. -/
def coerceNewIndex (q : JQuestion) (seed : Int) : Int :=
  match findIdxAux (fun x => x == coerceCorrectText q) (coerceShuffled q seed) 0 with
  | some n => (n : Int)
  | none => -1

/-- `coerceAndRandomize(q, seed)`: sanitize every field, then shuffle the
choices with the seeded generator and relocate `correct_index` by searching
for the original correct entry (`findIndex`, defaulting to 0 when it returns
`-1`). -/
def coerceAndRandomize (q : JQuestion) (seed : Int) : JQuestion :=
  { question := .str (sanitizeStr q.question "")
    choices := some ((coerceShuffled q seed).map
      (fun o => match o with | some s => JVal.str s | none => JVal.undefv))
    correct_index :=
      .num (((if 0 ≤ coerceNewIndex q seed then coerceNewIndex q seed else 0) : Int) : Rat)
    explanation := .str (sanitizeStr q.explanation "")
    headword := .str (sanitizeStr q.headword "")
    mode := .str (sanitizeStr q.mode "definition")
    answer_text := .str (sanitizeStr q.answer_text "")
    topic_key := .str (sanitizeStr q.topic_key "")
    subject_matter := .str (sanitizeStr q.subject_matter "") }

end Part000

namespace Part003
/-!  Embedding of src/unnamed/part_003 (the cached/pooled trivia.js iteration
with `mulberry32` seeded shuffling, minimal `validate`, `poolPush`,
`extractJson`). -/

open JsModel

/-- One step of `mulberry32`: returns the new accumulator state and the 32-bit
output.  `Math.imul` and the JS bitwise operators all work mod 2^32 on the
bit pattern, so everything is a `Nat` below 2^32. -/
def mulberry32Step (a : Nat) : Nat × Nat :=
  let a' := (a + 0x6d2b79f5) % 4294967296
  let t1 := a'
  let t2 := (t1 ^^^ (t1 >>> 15)) * (t1 ||| 1) % 4294967296
  let t3 := t2 ^^^ ((t2 + ((t2 ^^^ (t2 >>> 7)) * (t2 ||| 61) % 4294967296)) % 4294967296)
  (a', t3 ^^^ (t3 >>> 14))

/-- The initial mulberry32 accumulator for an integer seed (mod 2^32; JS keeps
the accumulator as a double but every embedded seed is below 2^53, where the
additions are exact and the bitwise reductions agree with mod 2^32). -/
def mulberryInit (seed : Int) : Nat := (seed % 4294967296).toNat

/-- The loop body of `shuffleInPlace` at current index `i+1`: one mulberry32
draw, `j = Math.floor(rng() * (i + 2))` (the output is divided by 2^32, so
`j = out * (i + 2) / 2^32` is exact and always at most `i + 1`), then the
swap. -/
def mulShuffleAux : List α → Nat → Nat → List α
  | a, _, 0 => a
  | a, st, Nat.succ i =>
    let p := mulberry32Step st
    let j := p.2 * (i + 2) / 4294967296
    mulShuffleAux (listSwap a (i + 1) j) p.1 i

/-- `shuffleInPlace(a, rng)` with `rng = mulberry32` in state `st` (the only
rng the callers pass).  Pure model: returns the shuffled list. -/
def shuffleInPlace (a : List α) (st : Nat) : List α :=
  match a.length with
  | 0 => a
  | Nat.succ n => mulShuffleAux a st n

/-- `finalizeChoices(questionObj, seed)`: seed the rng (an integer seed when
`typeof seed === "number"`, else `Math.floor(Math.random()*1e9)`, modelled by
`ambientRandom`), remember `choices[correct_index]`, shuffle in place, and
relocate `correct_index` with `findIndex` (`-1` when the original value is
not found).  A non-array `choices` would throw in JS and never occurs in the
callers; it is modelled as the empty list. -/
def finalizeChoices (q : JQuestion) (seed : Option Int) (ambientRandom : Nat) : JQuestion :=
  let st : Nat := mulberryInit (match seed with | some s => s | none => ambientRandom)
  let cs : List JVal := match q.choices with | some xs => xs | none => []
  let originalCorrect : JVal := jsIndexJV cs q.correct_index
  let shuffled := shuffleInPlace cs st
  { q with
    choices := some shuffled
    correct_index := .num ((jsFindIndex (fun x => x == originalCorrect) shuffled : Int) : Rat) }

/-- `validate(q)` of part_003: the boolean verdict together with the object
after the in-place defaulting of optional fields (the JS function mutates its
argument).  A null/non-object argument is rejected before these reads and is
not represented here (no embedded call site passes one). -/
def validate (q : JQuestion) : Bool × JQuestion :=
  match q.question with
  | .str s =>
    if s.length < 8 ∨ 200 < s.length then (false, q)
    else
      match q.choices with
      | some cs =>
        if cs.length ≠ 4 then (false, q)
        else
          match q.correct_index with
          | .num r =>
            if r < 0 ∨ 3 < r then (false, q)
            else
              let e := match q.explanation with | .str t => JVal.str t | _ => .str ""
              let m := match q.mode with | .str t => JVal.str t | _ => .str "definition"
              let a := match q.answer_text with
                | .str t => JVal.str t
                | _ => jsIndexJV cs (.num r)
              let h := match q.headword with | .str t => JVal.str t | _ => a
              let tk := match q.topic_key with | .str t => JVal.str t | _ => .str ""
              let sm := match q.subject_matter with | .str t => JVal.str t | _ => .str "general"
              (true, { q with explanation := e, mode := m, answer_text := a,
                              headword := h, topic_key := tk, subject_matter := sm })
          | _ => (false, q)
      | none => (false, q)
  | _ => (false, q)

/-- Pool capacity per `category:difficulty` key. -/
def POOL_SIZE : Nat := 6

/-- `(x.question || "").trim()` for a pooled entry (pooled entries always have
string questions; a non-string truthy value would throw in JS). -/
def qTrimText (q : JQuestion) : String :=
  jsTrim (match q.question with | .str s => s | _ => "")

/-- The `while (pool.length > POOL_SIZE) pool.shift();` loop. -/
def shiftWhileOver (pool : List JQuestion) : List JQuestion :=
  if pool.length > POOL_SIZE then shiftWhileOver pool.tail else pool
termination_by pool.length
decreasing_by
  cases pool with
  | nil => simp [POOL_SIZE] at *
  | cons a t => simp

/-- `poolPush(category, difficulty, q)` acting on the pool list for the key:
skip when an entry has the same trimmed question text, else append and evict
from the front while over capacity. -/
def poolPush (pool : List JQuestion) (q : JQuestion) : List JQuestion :=
  if pool.any (fun x => qTrimText x == qTrimText q) then pool
  else shiftWhileOver (pool ++ [q])

end Part003

namespace JsonModel
/-!  A model of `JSON.parse` (ECMA-404 grammar; strict, so trailing commas are
a parse error), used by the extraction-ladder claims.  Numbers keep their
lexeme (the embedded code never reads a parsed number's value before
validation, which `JVal` models separately). -/

/-- A parsed JSON value. -/
inductive Json where
  | null
  | boolean (b : Bool)
  | num (lex : String)
  | str (s : String)
  | arr (elems : List Json)
  | obj (fields : List (String × Json))

/-- JSON insignificant whitespace (exactly space, tab, line feed, carriage
return, per the JSON grammar used by `JSON.parse`). -/
def jsonWsChar (c : Char) : Bool :=
  c == ' ' || c == '\t' || c == '\n' || c == '\r'

def skipJsonWs (l : List Char) : List Char := l.dropWhile jsonWsChar

def isDigitChar (c : Char) : Bool := '0' ≤ c && c ≤ '9'

def hexVal (c : Char) : Option Nat :=
  let n := c.toNat
  if 48 ≤ n ∧ n ≤ 57 then some (n - 48)
  else if 97 ≤ n ∧ n ≤ 102 then some (n - 87)
  else if 65 ≤ n ∧ n ≤ 70 then some (n - 55)
  else none

/-- Parse a JSON string body after the opening quote: returns the decoded
characters and the rest.  Raw control characters are rejected; the eight
escape forms and `\uXXXX` are decoded (lone surrogates, which no embedded
input contains, are folded through `Char.ofNat`). -/
def parseJStrChars : Nat → List Char → Option (List Char × List Char)
  | 0, _ => none
  | fuel + 1, l =>
    match l with
    | [] => none
    | c :: rest =>
      if c = '"' then some ([], rest)
      else if c = '\\' then
        match rest with
        | [] => none
        | e :: rest2 =>
          let dec : Option (Char × List Char) :=
            if e = '"' then some ('"', rest2)
            else if e = '\\' then some ('\\', rest2)
            else if e = '/' then some ('/', rest2)
            else if e = 'b' then some ('\x08', rest2)
            else if e = 'f' then some ('\x0c', rest2)
            else if e = 'n' then some ('\n', rest2)
            else if e = 'r' then some ('\r', rest2)
            else if e = 't' then some ('\t', rest2)
            else if e = 'u' then
              match rest2 with
              | h1 :: h2 :: h3 :: h4 :: rest3 =>
                match hexVal h1, hexVal h2, hexVal h3, hexVal h4 with
                | some a, some b, some c3, some d =>
                  some (Char.ofNat (((a * 16 + b) * 16 + c3) * 16 + d), rest3)
                | _, _, _, _ => none
              | _ => none
            else none
          match dec with
          | some (ch, r2) =>
            match parseJStrChars fuel r2 with
            | some (cs, r3) => some (ch :: cs, r3)
            | none => none
          | none => none
      else if c.toNat < 0x20 then none
      else
        match parseJStrChars fuel rest with
        | some (cs, r3) => some (c :: cs, r3)
        | none => none

/-- Parse a JSON number token, returning its lexeme and the rest. -/
def parseJNum (l : List Char) : Option (List Char × List Char) :=
  let (sign, l1) := match l with | '-' :: r => (['-'], r) | _ => (([] : List Char), l)
  match l1 with
  | [] => none
  | c :: _ =>
    if ¬ isDigitChar c then none
    else
      let (intPart, l2) :=
        if c = '0' then (['0'], l1.tail)
        else (l1.takeWhile isDigitChar, l1.dropWhile isDigitChar)
      let (fracPart, l3) :=
        match l2 with
        | '.' :: r =>
          if (r.takeWhile isDigitChar).length = 0 then (none, l2)
          else (some ('.' :: r.takeWhile isDigitChar), r.dropWhile isDigitChar)
        | _ => (none, l2)
      match fracPart, l2 with
      | none, '.' :: _ => none
      | _, _ =>
        let (expPart, l4) :=
          match l3 with
          | e :: r =>
            if e = 'e' ∨ e = 'E' then
              let (esign, r1) := match r with
                | s :: r2 => if s = '+' ∨ s = '-' then ([s], r2) else (([] : List Char), r)
                | [] => ([], r)
              if (r1.takeWhile isDigitChar).length = 0 then (none, l3)
              else (some (e :: esign ++ r1.takeWhile isDigitChar), r1.dropWhile isDigitChar)
            else (none, l3)
          | [] => (none, l3)
        match expPart, l3 with
        | none, e :: _ =>
          if e = 'e' ∨ e = 'E' then none
          else some (sign ++ intPart ++ (fracPart.getD []), l3)
        | none, [] => some (sign ++ intPart ++ (fracPart.getD []), l3)
        | some ex, _ => some (sign ++ intPart ++ (fracPart.getD []) ++ ex, l4)

mutual

/-- Parse one JSON value starting at `l` (no leading whitespace). -/
def parseVal : Nat → List Char → Option (Json × List Char)
  | 0, _ => none
  | fuel + 1, l =>
    match l with
    | [] => none
    | c :: rest =>
      if c = '{' then
        match skipJsonWs rest with
        | '}' :: r2 => some (.obj [], r2)
        | r1 =>
          match parseObjFields fuel r1 with
          | some (fs, r2) => some (.obj fs, r2)
          | none => none
      else if c = '[' then
        match skipJsonWs rest with
        | ']' :: r2 => some (.arr [], r2)
        | r1 =>
          match parseArrElems fuel r1 with
          | some (xs, r2) => some (.arr xs, r2)
          | none => none
      else if c = '"' then
        match parseJStrChars (fuel + 1) rest with
        | some (cs, r2) => some (.str ⟨cs⟩, r2)
        | none => none
      else if c = 't' then
        match rest with
        | 'r' :: 'u' :: 'e' :: r2 => some (.boolean true, r2)
        | _ => none
      else if c = 'f' then
        match rest with
        | 'a' :: 'l' :: 's' :: 'e' :: r2 => some (.boolean false, r2)
        | _ => none
      else if c = 'n' then
        match rest with
        | 'u' :: 'l' :: 'l' :: r2 => some (.null, r2)
        | _ => none
      else if c = '-' ∨ isDigitChar c then
        match parseJNum l with
        | some (lex, r2) => some (.num ⟨lex⟩, r2)
        | none => none
      else none

/-- Parse one-or-more comma-separated array elements followed by `]`. -/
def parseArrElems : Nat → List Char → Option (List Json × List Char)
  | 0, _ => none
  | fuel + 1, l =>
    match parseVal fuel l with
    | some (v, r1) =>
      match skipJsonWs r1 with
      | ',' :: r2 =>
        match parseArrElems fuel (skipJsonWs r2) with
        | some (xs, r3) => some (v :: xs, r3)
        | none => none
      | ']' :: r2 => some ([v], r2)
      | _ => none
    | none => none

/-- Parse one-or-more `"key": value` members followed by `}`. -/
def parseObjFields : Nat → List Char → Option (List (String × Json) × List Char)
  | 0, _ => none
  | fuel + 1, l =>
    match l with
    | '"' :: rest =>
      match parseJStrChars (fuel + 1) rest with
      | some (key, r1) =>
        match skipJsonWs r1 with
        | ':' :: r2 =>
          match parseVal fuel (skipJsonWs r2) with
          | some (v, r3) =>
            match skipJsonWs r3 with
            | ',' :: r4 =>
              match parseObjFields fuel (skipJsonWs r4) with
              | some (fs, r5) => some ((⟨key⟩, v) :: fs, r5)
              | none => none
            | '}' :: r4 => some ([(⟨key⟩, v)], r4)
            | _ => none
          | none => none
        | _ => none
      | none => none
    | _ => none

end

/-- `JSON.parse(s)`: parse one value surrounded by optional whitespace,
rejecting leftovers.  The fuel is ample: every nesting or list step of the
grammar consumes input. -/
def jsonParse (s : String) : Option Json :=
  match parseVal (2 * s.length + 2) (skipJsonWs s.data) with
  | some (v, rest) => if skipJsonWs rest = [] then some v else none
  | none => none

end JsonModel

namespace Part000

open JsModel JsonModel

/-- The scan of `replace(/,\s*([}\]])/g, "$1")`, fueled (the fuel never runs
out when it starts at the input length: every step consumes at least one
character). -/
def stripCommasGo : Nat → List Char → List Char
  | 0, l => l
  | _ + 1, [] => []
  | fuel + 1, c :: rest =>
    if c = ',' then
      match rest.dropWhile jsSpaceChar with
      | b :: tail =>
        if b = '}' ∨ b = ']' then b :: stripCommasGo fuel tail
        else c :: stripCommasGo fuel rest
      | [] => c :: stripCommasGo fuel rest
    else c :: stripCommasGo fuel rest

/-- `slice.replace(/,\s*([}\]])/g, "$1")`: drop every comma (with following
whitespace) that directly precedes `}` or `]`, scanning left to right. -/
def stripTrailingCommas (s : String) : String := ⟨stripCommasGo s.data.length s.data⟩

/-- JS `text.indexOf(c)` as an `Option Nat` (`none` = `-1`). -/
def firstIdxChar (c : Char) (s : String) : Option Nat :=
  findIdxAux (fun x => x == c) s.data 0

/-- JS `text.lastIndexOf(c)` as an `Option Nat` (`none` = `-1`). -/
def lastIdxChar (c : Char) (s : String) : Option Nat :=
  match findIdxAux (fun x => x == c) s.data.reverse 0 with
  | some k => some (s.data.length - 1 - k)
  | none => none

/-- JS `text.slice(a, b)` for `0 ≤ a ≤ b`. -/
def sliceStr (s : String) (a b : Nat) : String := ⟨(s.data.drop a).take (b - a)⟩

/-- `safeJsonScan(text)`, parameterized by the JSON parser: try the whole
text; then the first `{` to the last `}` slice; then the slice with trailing
commas stripped; else fail (the JS function throws).  `none` models the
thrown "Could not parse JSON from model output". -/
def safeJsonScanP (parse : String → Option Json) (text : String) : Option Json :=
  match parse text with
  | some v => some v
  | none =>
    match firstIdxChar '{' text, lastIdxChar '}' text with
    | some s, some e =>
      if s < e then
        let slice := sliceStr text s (e + 1)
        match parse slice with
        | some v => some v
        | none => parse (stripTrailingCommas slice)
      else none
    | _, _ => none

/-- `safeJsonScan` with the actual `JSON.parse` model. -/
def safeJsonScan (text : String) : Option Json := safeJsonScanP jsonParse text

end Part000

namespace SpecModel

open JsModel JsonModel Part000

/-- The extraction ladder exactly as the specification words it: (a) parse the
whole text; failing that, (b) take the first `{...}` span (first opening
brace to last closing brace) and parse it; failing that, (c) strip trailing
commas from the span and parse again; if none of the three parses succeed,
the extraction fails. -/
def specLadder (parse : String → Option Json) (text : String) : Option Json :=
  (parse text).orElse fun _ =>
    match firstIdxChar '{' text, lastIdxChar '}' text with
    | some s, some e =>
      if s < e then
        ((parse (sliceStr text s (e + 1))).orElse fun _ =>
          parse (stripTrailingCommas (sliceStr text s (e + 1))))
      else none
    | _, _ => none

end SpecModel

namespace Part003

open JsModel JsonModel

/-- `extractJson(s)`: the trimmed text when it is brace-delimited, else the
first-`{`-to-last-`}` slice when one exists, else the trimmed text itself.
(No parsing, no comma repair: the caller runs a single `JSON.parse`.) -/
def extractJson (s : String) : String :=
  let t := jsTrim s
  if t.data.head? = some '{' ∧ t.data.getLast? = some '}' then t
  else
    match Part000.firstIdxChar '{' t, Part000.lastIdxChar '}' t with
    | some a, some b => if a < b then Part000.sliceStr t a (b + 1) else t
    | _, _ => t

/-- The part_003 extraction pipeline: `JSON.parse(extractJson(txt))`,
`none` modelling the thrown `SyntaxError`. -/
def extractAndParse (txt : String) : Option Json := jsonParse (extractJson txt)

end Part003

namespace TriviaJs
/-!  Embedding of src/functions/api/trivia.js: the per-client advisory lock,
the generation attempt loop (inline validation chain, dictionary checks,
deduplication checks), and the inline fallback bank.

External collaborators are oracle inputs: the model call of attempt `k` is
`(oracle k).ai` (`none` = rejection/timeout), the KV reads are the attempt's
`kvSubjectSeen`/`kvTopicSeen` flags, the in-process seen-set membership is
`memSeen` (the set is only written after a response is chosen, so a
per-attempt boolean is fully general), `Math.random()` of the single
`fallback()` call a response can make is `randIdx`, and the SHA-256
collaborator is absorbed into those boolean reads. -/

open JsModel

/-- `norm(s) = String(s || "").trim()`. -/
def norm (v : JVal) : String := jsTrim (jsOrEmptyToString v)

/-- `looksSingleWord = (s) => /^[A-Za-z-]+$/.test(s || "")`. -/
def looksSingleWord (s : String) : Bool :=
  s ≠ "" && s.data.all (fun c => ('A' ≤ c && c ≤ 'Z') || ('a' ≤ c && c ≤ 'z') || c == '-')

/-- `looksPhrase = (s) => /\s/.test(s || "") && (s || "").length > 3`. -/
def looksPhrase (s : String) : Bool :=
  s.data.any jsSpaceChar && s.length > 3

/-- `\w` of the `normalize` regex. -/
def jsWordChar (c : Char) : Bool :=
  ('A' ≤ c && c ≤ 'Z') || ('a' ≤ c && c ≤ 'z') || ('0' ≤ c && c ≤ '9') || c == '_'

/-- The `\s+ -> " "` collapse of `normalize`, fueled by the input length. -/
def collapseGo : Nat → List Char → List Char
  | 0, l => l
  | _ + 1, [] => []
  | fuel + 1, c :: rest =>
    if jsSpaceChar c then ' ' :: collapseGo fuel (rest.dropWhile jsSpaceChar)
    else c :: collapseGo fuel rest

/-- `normalize(s)`: lowercase, drop everything outside `[\w\s-]`, collapse
whitespace runs to a single space, trim. -/
def normalize (s : String) : String :=
  let filtered := (jsToLower s).data.filter
    (fun c => jsWordChar c || jsSpaceChar c || c == '-')
  jsTrim ⟨collapseGo filtered.length filtered⟩

/-- `Math.floor(n * 0.6)` computed exactly as IEEE doubles do: multiply by the
double nearest 0.6 (`5404319552844595 / 2^53`), round the product to 53
significant bits (nearest, ties to even), floor. -/
def jsFloorMul06 (n : Nat) : Nat :=
  let P := n * 5404319552844595
  if P = 0 then 0
  else
    let k := Nat.log2 P + 1
    if k ≤ 53 then P / 9007199254740992
    else
      let s := k - 53
      let hi := P >>> s
      let rem := P % 2 ^ s
      let half := 2 ^ (s - 1)
      let hi2 := hi + (if rem > half ∨ (rem = half ∧ hi % 2 = 1) then 1 else 0)
      hi2 * 2 ^ s / 9007199254740992

/-- The scan behind `s.match(/"([^"]+)"/g)`: all nonoverlapping quoted spans
with nonempty interiors (the `.replace(/"/g, "")` of the caller strips the
quotes, so the interiors are returned). -/
def extractQuotedGo : Nat → List Char → List String
  | 0, _ => []
  | _ + 1, [] => []
  | fuel + 1, c :: rest =>
    if c = '"' then
      let inner := rest.takeWhile (fun x => x ≠ '"')
      match rest.dropWhile (fun x => x ≠ '"') with
      | _ :: tail =>
        if inner = [] then extractQuotedGo fuel rest
        else (⟨inner⟩ : String) :: extractQuotedGo fuel tail
      | [] => []
    else extractQuotedGo fuel rest

/-- `s.split(/\s+/)` (empty pieces are irrelevant: the caller filters by
length). -/
def splitFields (l : List Char) : List String :=
  (l.foldr (fun c acc =>
    if jsSpaceChar c then [] :: acc
    else
      match acc with
      | [] => [[c]]
      | w :: ws => (c :: w) :: ws) []).map (fun w => (⟨w⟩ : String))

/-- The `extract` helper of `isSimilarQuestion`: quoted spans if any, else
words longer than 4 characters. -/
def extract (s : String) : List String :=
  let quoted := extractQuotedGo s.data.length s.data
  if quoted ≠ [] then quoted
  else (splitFields s.data).filter (fun w => w.length > 4)

/-- `isSimilarQuestion(q1, q2)`: equal normalizations, or a long shared
prefix-substring (60% of the shorter normalization once it exceeds 20
characters), or a shared extracted subject longer than 5 characters. -/
def isSimilarQuestion (q1 q2 : String) : Bool :=
  let n1 := normalize q1
  let n2 := normalize q2
  if n1 == n2 then true
  else
    let minLen := min n1.length n2.length
    let subMatch :=
      if minLen > 20 then
        let checkLen := jsFloorMul06 minLen
        containsSubstr n1 (takeStr n2 checkLen) || containsSubstr n2 (takeStr n1 checkLen)
      else false
    if subMatch then true
    else
      (extract q1).any (fun s1 => (extract q2).any (fun s2 => s1 == s2 && s1.length > 5))

/-- `firstSentence(s)`: the prefix up to the first `.`/`!`/`?` inclusive,
else the first 100 characters, trimmed. -/
def firstSentence (v : JVal) : String :=
  let str := jsTrim (jsOrEmptyToString v)
  match findIdxAux (fun c => c == '.' || c == '!' || c == '?') str.data 0 with
  | some i => jsTrim (takeStr str (i + 1))
  | none => jsTrim (takeStr str 100)

/-- An entry of the inline `fallbacks` bank. -/
structure FallbackQ where
  question : String
  choices : List String
  correct_index : Nat
  explanation : String
deriving DecidableEq, Repr

/-- The inline fallback bank (transcribed verbatim from the handler). -/
def fallbacks : List FallbackQ := [
  ⟨"What is the largest ocean on Earth?",
   ["Atlantic Ocean", "Indian Ocean", "Pacific Ocean", "Arctic Ocean"], 2,
   "The Pacific Ocean is the largest and deepest of Earth\x27s ocean basins."⟩,
  ⟨"What is the capital city of Japan?",
   ["Kyoto", "Osaka", "Tokyo", "Nagoya"], 2,
   "Tokyo has been Japan\x27s capital since 1869."⟩,
  ⟨"What is the hardest natural substance?",
   ["Quartz", "Diamond", "Gold", "Graphite"], 1,
   "Diamond\x27s strong carbon lattice makes it the hardest natural material."⟩,
  ⟨"Which animal is the tallest on land?",
   ["Elephant", "Giraffe", "Horse", "Camel"], 1,
   "Adult giraffes can exceed 5.5 meters (18 feet) in height."⟩,
  ⟨"H2O is the chemical formula for what substance?",
   ["Hydrogen", "Water", "Oxygen", "Salt"], 1,
   "H2O represents water, composed of two hydrogen atoms and one oxygen."⟩,
  ⟨"Plants make their own food using which process?",
   ["Fermentation", "Respiration", "Photosynthesis", "Germination"], 2,
   "Photosynthesis converts light energy into chemical energy in plants."⟩,
  ⟨"Who wrote the play \x27Romeo and Juliet\x27?",
   ["Charles Dickens", "Leo Tolstoy", "William Shakespeare", "Mark Twain"], 2,
   "Shakespeare wrote the tragedy in the late 16th century."⟩,
  ⟨"How many continents are there on Earth?",
   ["Five", "Six", "Seven", "Eight"], 2,
   "The widely taught model counts seven continents."⟩,
  ⟨"Which gas makes up most of Earth\x27s atmosphere?",
   ["Oxygen", "Nitrogen", "Carbon dioxide", "Argon"], 1,
   "Nitrogen is about 78% of the atmosphere by volume."⟩,
  ⟨"Which is the fastest land animal?",
   ["Lion", "Cheetah", "Pronghorn", "Horse"], 1,
   "Cheetahs can sprint up to about 100–120 km/h in short bursts."⟩,
  ⟨"Which is the largest planet in our Solar System?",
   ["Earth", "Saturn", "Jupiter", "Neptune"], 2,
   "Jupiter is the biggest, with a mass over 300 times Earth\x27s."⟩,
  ⟨"What is the currency of the United Kingdom?",
   ["Euro", "Pound sterling", "US Dollar", "Krona"], 1,
   "The British currency is the pound sterling (GBP)."⟩,
  ⟨"Which organ pumps blood through the body?",
   ["Lungs", "Kidneys", "Heart", "Liver"], 2,
   "The heart circulates blood via rhythmic contractions."⟩,
  ⟨"Which common metal is strongly attracted to magnets?",
   ["Copper", "Iron", "Aluminum", "Gold"], 1,
   "Iron is ferromagnetic and is strongly attracted to magnets."⟩,
  ⟨"What is the square root of 81?",
   ["7", "8", "9", "10"], 2,
   "9 × 9 equals 81."⟩,
  ⟨"Which is the longest river in Africa?",
   ["Niger", "Nile", "Congo", "Zambezi"], 1,
   "The Nile flows over 6,600 km through northeastern Africa."⟩,
  ⟨"What is the chemical symbol for sodium?",
   ["So", "S", "Na", "Sd"], 2,
   "Na comes from the Latin name \x27natrium\x27 for sodium."⟩,
  ⟨"Which country is home to the Great Barrier Reef?",
   ["New Zealand", "Australia", "Fiji", "Indonesia"], 1,
   "The Great Barrier Reef lies off Australia\x27s northeast coast."⟩,
  ⟨"Who painted the \x27Mona Lisa\x27?",
   ["Michelangelo", "Raphael", "Leonardo da Vinci", "Vincent van Gogh"], 2,
   "Leonardo painted it in the early 16th century."⟩,
  ⟨"What is the first element on the periodic table?",
   ["Helium", "Hydrogen", "Lithium", "Carbon"], 1,
   "Hydrogen has atomic number 1."⟩,
  ⟨"Which language has the most native speakers?",
   ["English", "Spanish", "Mandarin Chinese", "Hindi"], 2,
   "Mandarin Chinese has the largest number of native speakers."⟩,
  ⟨"Which is the largest hot desert on Earth?",
   ["Gobi", "Kalahari", "Sahara", "Arabian"], 2,
   "The Sahara is the largest hot desert by area."⟩,
  ⟨"How many degrees are in a right angle?",
   ["45", "60", "90", "180"], 2,
   "A right angle measures exactly 90 degrees."⟩,
  ⟨"Which instrument has keys, pedals, and strings?",
   ["Harp", "Violin", "Piano", "Trumpet"], 2,
   "A piano uses hammers to strike strings when keys are pressed."⟩,
  ⟨"What is the closest star to Earth?",
   ["Alpha Centauri", "Sirius", "Betelgeuse", "The Sun"], 3,
   "Our Sun is the nearest star to Earth."⟩,
  ⟨"What protein in red blood cells carries oxygen?",
   ["Myoglobin", "Hemoglobin", "Albumin", "Collagen"], 1,
   "Hemoglobin binds oxygen for transport in the bloodstream."⟩,
  ⟨"Which country is nicknamed the \x27Land of the Rising Sun\x27?",
   ["China", "Japan", "Thailand", "South Korea"], 1,
   "Japan\x27s name is linked to the eastern sunrise."⟩,
  ⟨"Which planet has the most prominent rings?",
   ["Venus", "Mars", "Saturn", "Mercury"], 2,
   "Saturn\x27s ring system is the most extensive and visible."⟩,
  ⟨"What is the largest land carnivore?",
   ["Tiger", "Grizzly bear", "Polar bear", "Wolf"], 2,
   "Adult male polar bears are the largest land carnivores."⟩,
  ⟨"What instrument is used to measure temperature?",
   ["Thermometer", "Barometer", "Altimeter", "Hygrometer"], 0,
   "A thermometer measures temperature."⟩,
  ⟨"Which cell organelle is known as the powerhouse of the cell?",
   ["Nucleus", "Mitochondria", "Ribosome", "Golgi apparatus"], 1,
   "Mitochondria generate most of the cell\x27s ATP."⟩,
  ⟨"What is the official language of Brazil?",
   ["Spanish", "Portuguese", "French", "Italian"], 1,
   "Brazil\x27s official and most spoken language is Portuguese."⟩,
  ⟨"How many sides does a hexagon have?",
   ["Five", "Six", "Seven", "Eight"], 1,
   "A hexagon is a six-sided polygon."⟩,
  ⟨"In which city is the Colosseum located?",
   ["Athens", "Rome", "Istanbul", "Barcelona"], 1,
   "The Colosseum is an ancient amphitheater in Rome, Italy."⟩,
  ⟨"How many players are on the field for one soccer team?",
   ["9", "10", "11", "12"], 2,
   "Association football has 11 players per team on the field."⟩,
  ⟨"What is the chemical formula for table salt?",
   ["Na2CO3", "NaCl", "KCl", "HCl"], 1,
   "Common table salt is sodium chloride, NaCl."⟩,
  ⟨"Which is the largest continent by area?",
   ["Africa", "Europe", "Asia", "North America"], 2,
   "Asia is the largest continent."⟩,
  ⟨"Which vitamin is produced in the skin when exposed to sunlight?",
   ["Vitamin A", "Vitamin B12", "Vitamin C", "Vitamin D"], 3,
   "UV light helps the skin synthesize vitamin D."⟩,
  ⟨"What do bees primarily collect to make honey?",
   ["Nectar", "Pollen", "Sap", "Dew"], 0,
   "Bees convert flower nectar into honey."⟩,
  ⟨"Cairo is the capital of which country?",
   ["Morocco", "Egypt", "Tunisia", "Sudan"], 1,
   "Cairo is the capital and largest city of Egypt."⟩,
  ⟨"Which instrument measures atmospheric pressure?",
   ["Anemometer", "Barometer", "Hygrometer", "Thermometer"], 1,
   "A barometer measures air pressure."⟩,
  ⟨"Who proposed the theory of relativity?",
   ["Isaac Newton", "Galileo Galilei", "Marie Curie", "Albert Einstein"], 3,
   "Einstein introduced special (1905) and general (1915) relativity."⟩,
  ⟨"Which metal is liquid at room temperature?",
   ["Mercury", "Aluminum", "Sodium", "Nickel"], 0,
   "Mercury is a liquid metal at standard conditions."⟩,
  ⟨"Which country gifted the Statue of Liberty to the United States?",
   ["France", "Spain", "Italy", "Germany"], 0,
   "France presented the statue in 1886 as a symbol of friendship."⟩,
  ⟨"What is the name of our galaxy?",
   ["Andromeda", "Sombrero", "Milky Way", "Triangulum"], 2,
   "Earth is located in the Milky Way galaxy."⟩,
  ⟨"Which organ primarily detoxifies chemicals in the body?",
   ["Stomach", "Liver", "Pancreas", "Spleen"], 1,
   "The liver metabolizes and detoxifies many substances."⟩,
  ⟨"At sea level, what is the boiling point of water in Celsius?",
   ["90°C", "95°C", "100°C", "110°C"], 2,
   "Water boils at 100°C at standard atmospheric pressure."⟩,
  ⟨"On which continent is the Amazon Rainforest located?",
   ["Africa", "Asia", "South America", "Australia"], 2,
   "Most of the Amazon lies within South America, chiefly Brazil."⟩,
  ⟨"What is the largest bone in the human body?",
   ["Tibia", "Femur", "Humerus", "Radius"], 1,
   "The femur (thighbone) is the body\x27s longest and strongest bone."⟩,
  ⟨"Which instrument typically has six strings in standard tuning?",
   ["Violin", "Cello", "Guitar", "Flute"], 2,
   "A standard guitar has six strings tuned E–A–D–G–B–E."⟩
]

/-- The question object a response serves (`id` and `_debug` elided: the
claims are about the question payload).  `source` is `some "fallback"` for
bank questions (the generated result carries no source field). -/
structure ServedQuestion where
  question : String
  choices : List String
  correct_index : JVal
  explanation : String
  source : Option String
deriving DecidableEq, Repr

/-- The handler's response: the advisory-lock 429 with its
`retry_after_ms`, or a 200 with a question body. -/
inductive TriviaResponse where
  | rateLimited (retryAfterMs : Int)
  | success (q : ServedQuestion)
deriving DecidableEq, Repr

/-- The collaborator outcomes of one generation attempt. -/
structure AttemptOracle where
  ai : Option JQuestion
  kvSubjectSeen : Bool
  kvTopicSeen : Bool
  memSeen : Bool

/-- The request-plus-environment state one handler invocation reads. -/
structure Ctx where
  category : String
  recent : List String
  kvEnabled : Bool
  hasAI : Bool
  now : Int
  lockUntil : Int
  lastSubject : Option String
  randIdx : Nat

/-- `qText = norm(payload?.question)`. -/
def chainQText (p : JQuestion) : String := norm p.question

/-- `choices = Array.isArray(payload?.choices) ? payload.choices.map(norm) : []`. -/
def chainChoices (p : JQuestion) : List String :=
  match p.choices with
  | some xs => xs.map norm
  | none => []

/-- `answerText = norm(payload?.answer_text)`. -/
def chainAnswerText (p : JQuestion) : String := norm p.answer_text

/-- `topicKey = norm(payload?.topic_key)`. -/
def chainTopicKey (p : JQuestion) : String := norm p.topic_key

/-- `subjectMatter = norm(payload?.subject_matter || topicKey)`. -/
def chainSubjectMatter (p : JQuestion) : String :=
  if truthy p.subject_matter then norm p.subject_matter
  else jsTrim (chainTopicKey p)

/-- `idxFromAnswer = choices.findIndex(c => c.toLowerCase() === answerText.toLowerCase())`. -/
def chainIdxFromAnswer (p : JQuestion) : Int :=
  jsFindIndex (fun c => jsToLower c == jsToLower (chainAnswerText p)) (chainChoices p)

/-- The negation of the big rejection disjunction of the core validation
chain: nonempty question of length ≥ 10, exactly 4 case-insensitively
distinct choices, `answer_text` found among the choices exactly at
`correct_index`, nonempty `answer_text` and `topic_key`, and
`topic_key` case-insensitively equal to `answer_text`. -/
def structOk (p : JQuestion) : Bool :=
  chainQText p ≠ "" &&
  10 ≤ (chainQText p).length &&
  (chainChoices p).length == 4 &&
  ((chainChoices p).map jsToLower).dedup.length == 4 &&
  chainIdxFromAnswer p ≠ -1 &&
  p.correct_index == JVal.num ((chainIdxFromAnswer p : Int) : Rat) &&
  chainAnswerText p ≠ "" &&
  chainTopicKey p ≠ "" &&
  jsToLower (chainTopicKey p) == jsToLower (chainAnswerText p)

/-- Outcome of the dictionary-category block of one attempt. -/
inductive DictOutcome where
  | pass
  | softRetry
  | hardFail
deriving DecidableEq, Repr

/-- The dictionary-category checks (`category === "dictionary"`). `hardFail`
is the `continue`-or-`throw` on a missing headword/mode, `softRetry` the
`continue` of the soft checks (present only while `attempt < MAX_TRIES - 1`),
`pass` means fall through.  Note: in `definition` mode there is no check that
a choice differs from the headword, and on the last attempt every soft check
is skipped. -/
def dictGate (category : String) (p : JQuestion) (isLast : Bool) : DictOutcome :=
  if category ≠ "dictionary" then .pass
  else
    let head := norm p.headword
    let mode := jsToLower (jsOrEmptyToString p.mode)
    if head = "" ∨ (mode ≠ "definition" ∧ mode ≠ "synonym") then .hardFail
    else if ¬ isLast ∧ ¬ (containsSubstr (jsToLower (chainQText p)) (jsToLower head) = true)
      then .softRetry
    else if mode = "synonym" then
      if ¬ isLast ∧ ¬ ((chainChoices p).all looksSingleWord = true) then .softRetry
      else if ¬ isLast ∧ jsToLower (chainAnswerText p) = jsToLower head then .softRetry
      else .pass
    else
      if ¬ isLast ∧ ¬ ((chainChoices p).all looksPhrase = true) then .softRetry
      else .pass

/-- `isDupe = recent.some(r => isSimilarQuestion(qText, r))`. -/
def isDupe (ctx : Ctx) (qText : String) : Bool :=
  ctx.recent.any (fun r => isSimilarQuestion qText r)

/-- The back-to-back prevention check against the last served subject. -/
def lastMatch (ctx : Ctx) (subjectMatter : String) : Bool :=
  match ctx.lastSubject with
  | some ls => ls ≠ "" && normalize ls == normalize subjectMatter
  | none => false

/-- The disjunction of the five deduplication checks of one attempt (each is
individually guarded by `attempt < MAX_TRIES - 1` in the source; the guard is
factored out in `attemptStep`). -/
def collision (ctx : Ctx) (o : AttemptOracle) (p : JQuestion) : Bool :=
  isDupe ctx (chainQText p) ||
  (ctx.kvEnabled && o.kvSubjectSeen) ||
  o.memSeen ||
  (ctx.kvEnabled && o.kvTopicSeen) ||
  lastMatch ctx (chainSubjectMatter p)

/-- The success body built at the end of an accepted attempt. -/
def mkResult (p : JQuestion) : ServedQuestion :=
  { question := chainQText p
    choices := chainChoices p
    correct_index := p.correct_index
    explanation := firstSentence (if truthy p.explanation then p.explanation else .str "")
    source := none }

/-- The response built by `fallback()` (the `Math.random()` draw is the
ambient `randIdx`, reduced into range). -/
def fallbackServe (randIdx : Nat) : ServedQuestion :=
  let fb := fallbacks.getD (randIdx % fallbacks.length) ⟨"", [], 0, ""⟩
  { question := fb.question
    choices := fb.choices
    correct_index := JVal.num ((fb.correct_index : Int) : Rat)
    explanation := fb.explanation
    source := some "fallback" }

/-- What one loop iteration does: serve a response or fall through to the
next attempt. -/
inductive StepOut where
  | serve (r : TriviaResponse)
  | retry
deriving DecidableEq, Repr

/-- One iteration of the generation loop.  A thrown error (model rejection, or
a failed structure/dictionary check on the last attempt) is caught by the
`catch`, which serves the fallback when `attempt === MAX_TRIES - 1` and
otherwise retries with a shifted seed. -/
def attemptStep (ctx : Ctx) (o : AttemptOracle) (isLast : Bool) : StepOut :=
  match o.ai with
  | none => if isLast then .serve (.success (fallbackServe ctx.randIdx)) else .retry
  | some p =>
    if ¬ (structOk p = true) then
      (if isLast then .serve (.success (fallbackServe ctx.randIdx)) else .retry)
    else
      match dictGate ctx.category p isLast with
      | .hardFail => if isLast then .serve (.success (fallbackServe ctx.randIdx)) else .retry
      | .softRetry => .retry
      | .pass =>
        if ¬ isLast ∧ collision ctx o p = true then .retry
        else .serve (.success (mkResult p))

/-- `MAX_TRIES` of the handler. -/
def MAX_TRIES : Nat := 3

/-- The `for (attempt = 0; attempt < MAX_TRIES; attempt++)` loop, fuel =
remaining iterations; exhausting it reaches the post-loop final fallback. -/
def genLoop (ctx : Ctx) (oracle : Nat → AttemptOracle) : Nat → Nat → TriviaResponse
  | _, 0 => .success (fallbackServe ctx.randIdx)
  | attempt, fuel + 1 =>
    match attemptStep ctx (oracle attempt) (attempt == MAX_TRIES - 1) with
    | .serve r => r
    | .retry => genLoop ctx oracle (attempt + 1) fuel

/-- The handler `onRequestPost`: per-client advisory lock (429 with
`retry_after_ms` when the lock is held), immediate fallback when the AI
binding is missing, else the generation loop. -/
def onRequestPost (ctx : Ctx) (oracle : Nat → AttemptOracle) : TriviaResponse :=
  if ctx.now < ctx.lockUntil then .rateLimited (ctx.lockUntil - ctx.now)
  else if ¬ ctx.hasAI then .success (fallbackServe ctx.randIdx)
  else genLoop ctx oracle 0 MAX_TRIES

/-- Structural validity of a served question: nonempty question text, exactly
four pairwise case-insensitively distinct choices, an integer `correct_index`
in bounds, and a nonempty correct choice (the structural core every success
path of the handler guarantees). -/
def structurallyValid (sq : ServedQuestion) : Bool :=
  sq.question ≠ "" &&
  sq.choices.length == 4 &&
  (sq.choices.map jsToLower).dedup.length == 4 &&
  (match sq.correct_index with
   | JVal.num r => r.den == 1 && 0 ≤ r.num && r.num < 4 && sq.choices.getD r.num.toNat "" ≠ ""
   | _ => false)

/-- Validity of a bank entry, in the same terms. -/
def fbValid (fb : FallbackQ) : Bool :=
  fb.question ≠ "" &&
  fb.choices.length == 4 &&
  (fb.choices.map jsToLower).dedup.length == 4 &&
  fb.correct_index < 4 &&
  fb.choices.getD fb.correct_index "" ≠ ""

end TriviaJs

namespace Part000

open JsModel

/-- The value a question's choices map to in the coerced record. -/
def toChoiceJV (o : Option String) : JVal :=
  match o with
  | some s => JVal.str s
  | none => JVal.undefv

end Part000

namespace Inputs
/-!  Concrete inputs used by counterexamples and witnesses. -/

open JsModel

/-- Re-reading a served response body as a question-shaped object (the fields
the response JSON carries; classification fields are absent on generated
results). -/
def servedToJQuestion (sq : TriviaJs.ServedQuestion) : JQuestion :=
  { question := .str sq.question
    choices := some (sq.choices.map JVal.str)
    correct_index := sq.correct_index
    explanation := .str sq.explanation
    headword := .undefv
    mode := .undefv
    answer_text := .undefv
    topic_key := .undefv
    subject_matter := .undefv }

/-- A model payload that passes the handler's validation chain although its
second distractor is the empty string (the chain checks distinctness and the
answer match, but not that every choice is nonempty). -/
def c1Payload : JQuestion :=
  { question := .str "Which fruit is listed first in this list?"
    choices := some [.str "", .str "Apple", .str "Banana", .str "Cherry"]
    correct_index := .num 1
    explanation := .str "Apple is the correct answer."
    headword := .undefv
    mode := .undefv
    answer_text := .str "Apple"
    topic_key := .str "Apple"
    subject_matter := .str "fruits" }

/-- A plain request context: no lock, AI bound, no KV, empty recent list. -/
def plainCtx : TriviaJs.Ctx :=
  { category := "general", recent := [], kvEnabled := false, hasAI := true,
    now := 10, lockUntil := 0, lastSubject := none, randIdx := 0 }

/-- Every attempt returns `c1Payload`, with no dedup hits. -/
def c1Oracle : Nat → TriviaJs.AttemptOracle := fun _ => ⟨some c1Payload, false, false, false⟩

/-- The question the handler serves for `c1Payload`. -/
def c1Served : TriviaJs.ServedQuestion :=
  { question := "Which fruit is listed first in this list?"
    choices := ["", "Apple", "Banana", "Cherry"]
    correct_index := .num 1
    explanation := "Apple is the correct answer."
    source := none }

/-- A valid, colliding payload for the dedup-retry claim. -/
def c7Payload : JQuestion :=
  { question := .str "Which planet is known as the Red Planet?"
    choices := some [.str "Mars", .str "Venus", .str "Jupiter", .str "Mercury"]
    correct_index := .num 0
    explanation := .str "Iron oxide colors Mars red."
    headword := .undefv
    mode := .undefv
    answer_text := .str "Mars"
    topic_key := .str "Mars"
    subject_matter := .str "Mars" }

/-- An attempt whose payload is valid but whose subject is in the in-memory
seen store. -/
def c7Oracle : TriviaJs.AttemptOracle := ⟨some c7Payload, false, false, true⟩

/-- A dictionary `definition` candidate whose correct choice equals the
(multi-word) headword: the chain accepts it. -/
def c6Payload : JQuestion :=
  { question := .str "What is the best definition of \"ice cream\"?"
    choices := some [.str "frozen sweetened dairy dessert", .str "ice cream",
                     .str "a hot savory soup", .str "a dry baked bread"]
    correct_index := .num 1
    explanation := .str "It is a frozen dessert."
    headword := .str "ice cream"
    mode := .str "definition"
    answer_text := .str "ice cream"
    topic_key := .str "ice cream"
    subject_matter := .str "ice cream" }

/-- The dictionary-category context for the C6 counterexample. -/
def c6Ctx : TriviaJs.Ctx :=
  { category := "dictionary", recent := [], kvEnabled := false, hasAI := true,
    now := 10, lockUntil := 0, lastSubject := none, randIdx := 0 }

/-- Every attempt returns `c6Payload`, with no dedup hits. -/
def c6Oracle : Nat → TriviaJs.AttemptOracle := fun _ => ⟨some c6Payload, false, false, false⟩

/-- A synonym-mode candidate with a multi-word choice (for the C6 witness). -/
def c6SynBad : JQuestion :=
  { question := .str "Which word is the closest synonym of \"rapid\"?"
    choices := some [.str "quick", .str "very slow", .str "tall", .str "dim"]
    correct_index := .num 0
    explanation := .str ""
    headword := .str "rapid"
    mode := .str "synonym"
    answer_text := .str "quick"
    topic_key := .str "quick"
    subject_matter := .str "rapid" }

/-- A synonym-mode candidate whose correct answer equals the headword. -/
def c6SynHead : JQuestion :=
  { question := .str "Which word is the closest synonym of \"rapid\"?"
    choices := some [.str "rapid", .str "slow", .str "tall", .str "dim"]
    correct_index := .num 0
    explanation := .str ""
    headword := .str "rapid"
    mode := .str "synonym"
    answer_text := .str "rapid"
    topic_key := .str "rapid"
    subject_matter := .str "rapid" }

/-- A definition-mode candidate with a single-word choice. -/
def c6DefBad : JQuestion :=
  { question := .str "What is the best definition of \"ice cream\"?"
    choices := some [.str "frozen sweetened dairy dessert", .str "soup",
                     .str "a hot savory broth", .str "a dry baked bread"]
    correct_index := .num 0
    explanation := .str ""
    headword := .str "ice cream"
    mode := .str "definition"
    answer_text := .str "frozen sweetened dairy dessert"
    topic_key := .str "frozen sweetened dairy dessert"
    subject_matter := .str "ice cream" }

/-- A candidate whose present `answer_text` does not match
`choices[correct_index]`, accepted by part_003's `validate`. -/
def c5Mismatch : JQuestion :=
  { question := .str "What color is the clear daytime sky?"
    choices := some [.str "Blue", .str "Green", .str "Red", .str "Yellow"]
    correct_index := .num 0
    explanation := .str ""
    headword := .str "sky"
    mode := .str "definition"
    answer_text := .str "Green"
    topic_key := .str "color"
    subject_matter := .str "sky" }

end Inputs

namespace Inputs

/-- Model text whose JSON object span carries a trailing comma: only ladder
step (c) repairs it. -/
def c4Text : String := "Result: \x7b\"a\": 1,\x7d"

end Inputs

namespace Inputs

open JsModel

/-- A candidate accepted by part_003's `validate` whose `correct_index` is the
non-integer 3/2: `choices[1.5]` is `undefined`, so `findIndex` returns `-1`. -/
def c2NonInt : JQuestion :=
  { question := .str "What color is the clear daytime sky?"
    choices := some [.str "Blue", .str "Green", .str "Red", .str "Yellow"]
    correct_index := .num (mkRat 3 2)
    explanation := .str ""
    headword := .str "sky"
    mode := .str "definition"
    answer_text := .str "Blue"
    topic_key := .str "color"
    subject_matter := .str "sky" }

/-- A question accepted by part_000's `validateQuestion`. -/
def c2Good : JQuestion :=
  { question := .str "What color is the clear daytime sky?"
    choices := some [.str "Blue", .str "Green", .str "Red"]
    correct_index := .num 0
    explanation := .str "Rayleigh scattering."
    headword := .undefv
    mode := .undefv
    answer_text := .undefv
    topic_key := .undefv
    subject_matter := .undefv }

/-- A question-shaped object with no usable string choice: after sanitizing,
the choices list is empty, yet `coerceAndRandomize` still returns index 0. -/
def c10Empty : JQuestion :=
  { question := .undefv
    choices := some [.num 3, .str "   "]
    correct_index := .str "x"
    explanation := .undefv
    headword := .undefv
    mode := .undefv
    answer_text := .undefv
    topic_key := .undefv
    subject_matter := .undefv }

end Inputs

namespace JsModel

/-! ### Basic lemmas about the JS string helpers -/

theorem dropWhile_self (p : α → Bool) (l : List α) :
    (l.dropWhile p).dropWhile p = l.dropWhile p := by
  induction l with
  | nil => rfl
  | cons a t ih =>
    by_cases h : p a
    · simp [List.dropWhile, h, ih]
    · simp [List.dropWhile, h]

theorem dropWhile_surDrop (p : α → Bool) (l : List α) :
    ∃ pre, pre ++ l.dropWhile p = l := by
  induction l with
  | nil => exact ⟨[], rfl⟩
  | cons a t ih =>
    by_cases h : p a
    · obtain ⟨pre, hp⟩ := ih
      exact ⟨a :: pre, by simp [List.dropWhile, h, hp]⟩
    · exact ⟨[], by simp [List.dropWhile, h]⟩

theorem dropWhile_head_false (p : α → Bool) (l : List α) (a : α) (t : List α)
    (h : l.dropWhile p = a :: t) : p a = false := by
  induction l with
  | nil => simp [List.dropWhile] at h
  | cons b s ih =>
    by_cases hb : p b
    · exact ih (by simpa [List.dropWhile, hb] using h)
    · simp [List.dropWhile, hb] at h
      simp [h.1] at hb
      simp [hb]

theorem jsTrimList_idem (l : List Char) : jsTrimList (jsTrimList l) = jsTrimList l := by
  unfold jsTrimList
  set u := l.dropWhile jsSpaceChar with hu
  set v := u.reverse.dropWhile jsSpaceChar with hv
  -- Step 1: `v.reverse` is untouched by a further left `dropWhile`.
  have hstep1 : v.reverse.dropWhile jsSpaceChar = v.reverse := by
    match hvr : v.reverse with
    | [] => rfl
    | b :: t =>
      -- `v` is a suffix of `u.reverse`, so `v.reverse` is a prefix of `u`,
      -- hence its head is `u`'s head, which does not satisfy the predicate.
      obtain ⟨pre, hpre⟩ := dropWhile_surDrop jsSpaceChar u.reverse
      rw [← hv] at hpre
      have hu2 : u = v.reverse ++ pre.reverse := by
        have := congrArg List.reverse hpre
        simpa using this.symm
      rw [hvr] at hu2
      have hhead : u.dropWhile jsSpaceChar = u := by
        rw [hu] ; exact dropWhile_self _ _
      have hb : jsSpaceChar b = false := by
        apply dropWhile_head_false jsSpaceChar u b (t ++ pre.reverse)
        rw [hhead, hu2] ; simp
      simp [List.dropWhile, hb]
  rw [hstep1]
  have hv2 : v.reverse.reverse.dropWhile jsSpaceChar = v := by
    simp only [List.reverse_reverse]
    rw [hv] ; exact dropWhile_self _ _
  rw [hv2]

theorem jsTrim_idem (s : String) : jsTrim (jsTrim s) = jsTrim s := by
  unfold jsTrim
  exact congrArg String.mk (jsTrimList_idem s.data)

theorem jsToLower_data (s : String) : (jsToLower s).data = s.data.map Char.toLower := rfl

theorem string_mk_eq_empty_iff (d : List Char) : String.mk d = "" ↔ d = [] := by
  constructor
  · intro h ; exact congrArg String.data h
  · intro h ; rw [h]

theorem jsToLower_eq_empty_iff (s : String) : jsToLower s = "" ↔ s = "" := by
  unfold jsToLower
  rw [string_mk_eq_empty_iff, List.map_eq_nil_iff]
  cases s
  exact (string_mk_eq_empty_iff _).symm

/-! ### findIdxAux lemmas -/

theorem findIdxAux_bound (f : α → Bool) :
    ∀ (l : List α) (i n : Nat), findIdxAux f l i = some n → i ≤ n ∧ n - i < l.length := by
  intro l
  induction l with
  | nil => intro i n h ; simp [findIdxAux] at h
  | cons a t ih =>
    intro i n h
    simp only [List.length_cons]
    by_cases hf : f a
    · simp [findIdxAux, hf] at h
      omega
    · simp [findIdxAux, hf] at h
      have := ih (i + 1) n h
      omega

theorem findIdxAux_found (f : α → Bool) :
    ∀ (l : List α) (i n : Nat), findIdxAux f l i = some n →
      ∃ x, l[n - i]? = some x ∧ f x = true := by
  intro l
  induction l with
  | nil => intro i n h ; simp [findIdxAux] at h
  | cons a t ih =>
    intro i n h
    by_cases hf : f a
    · simp [findIdxAux, hf] at h
      subst h
      refine ⟨a, by simp, hf⟩
    · simp [findIdxAux, hf] at h
      obtain ⟨x, hx, hfx⟩ := ih (i + 1) n h
      have hb := findIdxAux_bound f t (i + 1) n h
      refine ⟨x, ?_, hfx⟩
      have hni : n - i = (n - (i + 1)) + 1 := by omega
      rw [hni]
      simpa using hx

theorem findIdxAux_some_of_mem (f : α → Bool) :
    ∀ (l : List α) (x : α) (i : Nat), x ∈ l → f x = true →
      ∃ n, findIdxAux f l i = some n := by
  intro l
  induction l with
  | nil => intro x i hx ; simp at hx
  | cons a t ih =>
    intro x i hx hfx
    by_cases hf : f a
    · exact ⟨i, by simp [findIdxAux, hf]⟩
    · rcases List.mem_cons.mp hx with h | h
      · subst h ; simp [hfx] at hf
      · obtain ⟨n, hn⟩ := ih x (i + 1) h hfx
        exact ⟨n, by simp [findIdxAux, hf, hn]⟩

end JsModel

namespace JsModel

theorem findIdxAux_none_of_all (f : α → Bool) :
    ∀ (l : List α) (i : Nat), (∀ x ∈ l, f x = false) → findIdxAux f l i = none := by
  intro l
  induction l with
  | nil => intro i _ ; rfl
  | cons a t ih =>
    intro i hall
    have ha : f a = false := hall a (by simp)
    simp only [findIdxAux, ha]
    exact ih (i + 1) (fun x hx => hall x (by simp [hx]))

end JsModel

namespace JsModel

/-! ### Permutation lemmas for the swap-based shuffles -/

theorem set_getElem_self (l : List α) (i : Nat) (h : i < l.length) :
    l.set i l[i] = l := by
  induction l generalizing i with
  | nil => simp at h
  | cons a t ih =>
    cases i with
    | zero => simp
    | succ k =>
      simp only [List.set_cons_succ, List.getElem_cons_succ]
      rw [ih]

theorem cons_set_multiset (l : List α) (i : Nat) (a : α) (h : i < l.length) :
    (l[i] ::ₘ (↑(l.set i a) : Multiset α)) = a ::ₘ (↑l : Multiset α) := by
  induction l generalizing i with
  | nil => simp at h
  | cons x t ih =>
    cases i with
    | zero =>
      simp only [List.getElem_cons_zero, List.set_cons_zero, ← Multiset.cons_coe]
      exact Multiset.cons_swap x a _
    | succ k =>
      have hk : k < t.length := by simpa using h
      simp only [List.getElem_cons_succ, List.set_cons_succ, ← Multiset.cons_coe]
      rw [Multiset.cons_swap, ih k hk, Multiset.cons_swap]

theorem listSwap_perm (l : List α) (i j : Nat) (hi : i < l.length) (hj : j < l.length) :
    (listSwap l i j).Perm l := by
  have hgi : l[i]? = some l[i] := List.getElem?_eq_getElem hi
  have hgj : l[j]? = some l[j] := List.getElem?_eq_getElem hj
  have hred : listSwap l i j = (l.set i l[j]).set j l[i] := by
    unfold listSwap
    rw [hgi, hgj]
  rw [hred]
  by_cases hij : i = j
  · subst hij
    rw [List.set_set, set_getElem_self l i hi]
  · rw [← Multiset.coe_eq_coe]
    have hi' : i < (l.set i l[j]).length := by simpa using hi
    have hj' : j < (l.set i l[j]).length := by simpa using hj
    have eq1 := cons_set_multiset l i (l[j]) hi
    have eq2 := cons_set_multiset (l.set i l[j]) j (l[i]) hj'
    have hM1j : (l.set i l[j])[j] = l[j] := by
      rw [List.getElem_set_ne (by omega)]
    rw [hM1j] at eq2
    have : (l[j] ::ₘ (↑((l.set i l[j]).set j l[i]) : Multiset α))
        = l[j] ::ₘ (↑l : Multiset α) := by
      rw [eq2, eq1]
    exact (Multiset.cons_inj_right _).mp this

theorem listSwap_length (l : List α) (i j : Nat) : (listSwap l i j).length = l.length := by
  unfold listSwap
  match h1 : l[i]?, h2 : l[j]? with
  | some xi, some xj => simp
  | some xi, none => simp
  | none, some xj => simp
  | none, none => simp

theorem listSwap_map (f : α → β) (l : List α) (i j : Nat) :
    (listSwap l i j).map f = listSwap (l.map f) i j := by
  unfold listSwap
  match h1 : l[i]?, h2 : l[j]? with
  | some xi, some xj => simp [List.getElem?_map, h1, h2, List.map_set]
  | some xi, none => simp [List.getElem?_map, h1, h2]
  | none, some xj => simp [List.getElem?_map, h1, h2]
  | none, none => simp [List.getElem?_map, h1, h2]

end JsModel

namespace Part003

open JsModel

theorem lt32_xor {a b : Nat} (ha : a < 4294967296) (hb : b < 4294967296) :
    a ^^^ b < 4294967296 := by
  have h32 : (4294967296 : Nat) = 2 ^ 32 := by norm_num
  rw [h32] at ha hb ⊢
  exact Nat.xor_lt_two_pow ha hb

theorem lt32_mod (a : Nat) : a % 4294967296 < 4294967296 := Nat.mod_lt _ (by norm_num)

theorem lt32_shiftRight {a : Nat} (ha : a < 4294967296) (k : Nat) : a >>> k < 4294967296 :=
  lt_of_le_of_lt (by rw [Nat.shiftRight_eq_div_pow] ; exact Nat.div_le_self _ _) ha

theorem mulberry32Step_out_lt (st : Nat) : (mulberry32Step st).2 < 4294967296 := by
  unfold mulberry32Step
  apply lt32_xor
  · exact lt32_xor (lt32_mod _) (lt32_mod _)
  · exact lt32_shiftRight (lt32_xor (lt32_mod _) (lt32_mod _)) 14

theorem mulberry_j_le (st i : Nat) :
    (mulberry32Step st).2 * (i + 2) / 4294967296 ≤ i + 1 := by
  have hlt : (mulberry32Step st).2 * (i + 2) < 4294967296 * (i + 2) :=
    (Nat.mul_lt_mul_right (by omega)).mpr (mulberry32Step_out_lt st)
  have : (mulberry32Step st).2 * (i + 2) / 4294967296 < i + 2 := by
    rw [Nat.div_lt_iff_lt_mul (by norm_num : (0:Nat) < 4294967296)]
    calc (mulberry32Step st).2 * (i + 2) < 4294967296 * (i + 2) := hlt
      _ = (i + 2) * 4294967296 := by ring
  omega

theorem mulShuffleAux_perm :
    ∀ (n : Nat) (a : List α) (st : Nat), n < a.length → (mulShuffleAux a st n).Perm a := by
  intro n
  induction n with
  | zero => intro a st _ ; exact List.Perm.refl a
  | succ i ih =>
    intro a st h
    show (mulShuffleAux (listSwap a (i + 1) ((mulberry32Step st).2 * (i + 2) / 4294967296))
      (mulberry32Step st).1 i).Perm a
    have hj : (mulberry32Step st).2 * (i + 2) / 4294967296 < a.length :=
      lt_of_le_of_lt (mulberry_j_le st i) h
    have hswap := listSwap_perm a (i + 1) _ h hj
    have hlen : i < (listSwap a (i + 1) ((mulberry32Step st).2 * (i + 2) / 4294967296)).length := by
      rw [listSwap_length] ; omega
    exact (ih _ (mulberry32Step st).1 hlen).trans hswap

theorem shuffleInPlace_perm (l : List α) (st : Nat) : (shuffleInPlace l st).Perm l := by
  unfold shuffleInPlace
  match hl : l.length with
  | 0 => exact List.Perm.refl l
  | Nat.succ n => exact mulShuffleAux_perm n l st (by omega)

theorem mulShuffleAux_map (f : α → β) :
    ∀ (n : Nat) (a : List α) (st : Nat),
      (mulShuffleAux a st n).map f = mulShuffleAux (a.map f) st n := by
  intro n
  induction n with
  | zero => intro a st ; rfl
  | succ i ih =>
    intro a st
    show (mulShuffleAux (listSwap a (i + 1) _) (mulberry32Step st).1 i).map f
      = mulShuffleAux (listSwap (a.map f) (i + 1) _) (mulberry32Step st).1 i
    rw [ih, listSwap_map]

theorem shuffleInPlace_map (f : α → β) (l : List α) (st : Nat) :
    (shuffleInPlace l st).map f = shuffleInPlace (l.map f) st := by
  unfold shuffleInPlace
  rw [List.length_map]
  match hl : l.length with
  | 0 => rfl
  | Nat.succ n => exact mulShuffleAux_map f n l st

end Part003

namespace Part000

open JsModel

theorem xorshift32Step_lt (x : Nat) : xorshift32Step x < 4294967296 := by
  unfold xorshift32Step
  exact Nat.mod_lt _ (by norm_num)

theorem xor_shl5_mod_ne (b : Nat) (hb : b.testBit 31 = false) :
    (b ^^^ (b <<< 5)) % 4294967296 ≠ 4294967295 := by
  intro h
  have e : ∀ i : Nat, i < 32 → (b ^^^ (b <<< 5)).testBit i = true := by
    intro i hi
    have hc := congrArg (fun t => Nat.testBit t i) h
    simp only [show (4294967296:Nat) = 2 ^ 32 by norm_num,
      show (4294967295:Nat) = 2 ^ 32 - 1 by norm_num,
      Nat.testBit_mod_two_pow, Nat.testBit_two_pow_sub_one, hi, decide_True,
      Bool.true_and] at hc
    exact hc
  have t1 := e 1 (by norm_num)
  rw [Nat.testBit_xor, Nat.testBit_shiftLeft] at t1
  simp at t1
  have t6 := e 6 (by norm_num)
  rw [Nat.testBit_xor, Nat.testBit_shiftLeft] at t6
  simp [t1] at t6
  have t11 := e 11 (by norm_num)
  rw [Nat.testBit_xor, Nat.testBit_shiftLeft] at t11
  simp [t6] at t11
  have t16 := e 16 (by norm_num)
  rw [Nat.testBit_xor, Nat.testBit_shiftLeft] at t16
  simp [t11] at t16
  have t21 := e 21 (by norm_num)
  rw [Nat.testBit_xor, Nat.testBit_shiftLeft] at t21
  simp [t16] at t21
  have t26 := e 26 (by norm_num)
  rw [Nat.testBit_xor, Nat.testBit_shiftLeft] at t26
  simp [t21] at t26
  have t31 := e 31 (by norm_num)
  rw [Nat.testBit_xor, Nat.testBit_shiftLeft] at t31
  simp [t26, hb] at t31

/-- The state after a middle line `x ^= x >> 17` has bit 31 clear (the
sign-propagating shift copies bit 31 into the result's bit 31, and the xor of
a bit with itself is 0), so the final `x ^= x << 5` cannot produce the
all-ones state: `seededPrng` never outputs exactly `1.0`. -/
theorem xorshift32Step_ne_top (x : Nat) : xorshift32Step x ≠ 4294967295 := by
  unfold xorshift32Step
  apply xor_shl5_mod_ne
  set a := (x ^^^ (x <<< 13)) % 4294967296 with ha
  have halt : a < 4294967296 := Nat.mod_lt _ (by norm_num)
  by_cases hc : a < 2147483648
  · rw [if_pos hc, Nat.testBit_xor]
    have h1 : a.testBit 31 = false := Nat.testBit_lt_two_pow (by omega)
    have h2 : (a >>> 17).testBit 31 = false := by
      rw [Nat.testBit_shiftRight]
      exact Nat.testBit_lt_two_pow (by omega)
    rw [h1, h2]
    rfl
  · rw [if_neg hc, Nat.testBit_xor, Nat.testBit_or]
    have h1 : a.testBit 31 = true := by
      rw [Nat.testBit_to_div_mod]
      have hd : a / 2 ^ 31 = 1 := by omega
      rw [hd]
      decide
    have h2 : (a >>> 17).testBit 31 = false := by
      rw [Nat.testBit_shiftRight]
      exact Nat.testBit_lt_two_pow (by omega)
    have h3 : (4294934528 : Nat).testBit 31 = true := by decide
    rw [h1, h2, h3]
    rfl

theorem xs_j_le (x i : Nat) : xorshift32Step x * (i + 2) / 4294967295 ≤ i + 2 := by
  have h : xorshift32Step x * (i + 2) ≤ 4294967295 * (i + 2) := by
    have := xorshift32Step_lt x
    exact Nat.mul_le_mul_right _ (by omega)
  calc xorshift32Step x * (i + 2) / 4294967295
      ≤ 4294967295 * (i + 2) / 4294967295 := Nat.div_le_div_right h
    _ = i + 2 := by rw [Nat.mul_div_cancel_left _ (by norm_num : (0:Nat) < 4294967295)]

theorem xs_j_le_of_ne (x i : Nat) (h : xorshift32Step x ≠ 4294967295) :
    xorshift32Step x * (i + 2) / 4294967295 ≤ i + 1 := by
  have hlt : xorshift32Step x < 4294967295 := by
    have := xorshift32Step_lt x ; omega
  have hmul : xorshift32Step x * (i + 2) < 4294967295 * (i + 2) :=
    (Nat.mul_lt_mul_right (by omega)).mpr hlt
  have : xorshift32Step x * (i + 2) / 4294967295 < i + 2 := by
    rw [Nat.div_lt_iff_lt_mul (by norm_num : (0:Nat) < 4294967295)]
    calc xorshift32Step x * (i + 2) < 4294967295 * (i + 2) := hmul
      _ = (i + 2) * 4294967295 := by ring
  omega

theorem xsShuffleAux_perm :
    ∀ (n : Nat) (a : List (Option α)) (x : Nat),
      n < a.length → (xsShuffleAux a x n).Perm a := by
  intro n
  induction n with
  | zero => intro a x _ ; exact List.Perm.refl a
  | succ i ih =>
    intro a x hn
    have hja : xorshift32Step x * (i + 2) / 4294967295 < a.length := by
      have := xs_j_le_of_ne x i (xorshift32Step_ne_top x)
      omega
    show (if xorshift32Step x * (i + 2) / 4294967295 < a.length then _ else _ : List (Option α)).Perm a
    rw [if_pos hja]
    have hswap := listSwap_perm a (i + 1) _ hn hja
    have hlen : i < (listSwap a (i + 1) (xorshift32Step x * (i + 2) / 4294967295)).length := by
      rw [listSwap_length] ; omega
    exact (ih _ (xorshift32Step x) hlen).trans hswap

theorem shuffleWithSeed_perm (l : List α) (seed : Int) :
    (shuffleWithSeed l seed).Perm (l.map some) := by
  unfold shuffleWithSeed
  match hl : l.length with
  | 0 => exact List.Perm.refl _
  | Nat.succ n =>
    refine xsShuffleAux_perm n (l.map some) (seededPrngInit seed) ?_
    rw [List.length_map, hl] ; omega

theorem xsShuffleAux_map (f : α → β) :
    ∀ (n : Nat) (a : List (Option α)) (x : Nat),
      (xsShuffleAux a x n).map (Option.map f) = xsShuffleAux (a.map (Option.map f)) x n := by
  intro n
  induction n with
  | zero => intro a x ; rfl
  | succ i ih =>
    intro a x
    show (if xorshift32Step x * (i + 2) / 4294967295 < a.length then _ else _ : List (Option α)).map _
      = (if xorshift32Step x * (i + 2) / 4294967295 < (a.map (Option.map f)).length then _ else _)
    rw [List.length_map]
    by_cases hj : xorshift32Step x * (i + 2) / 4294967295 < a.length
    · rw [if_pos hj, if_pos hj, ih, listSwap_map]
    · rw [if_neg hj, if_neg hj, ih]
      congr 1
      have hgd : (a.map (Option.map f)).getD (i + 1) none
          = Option.map f (a.getD (i + 1) none) := by
        rcases Nat.lt_or_ge (i + 1) a.length with hlt | hge
        · rw [List.getD_eq_getElem?_getD, List.getD_eq_getElem?_getD, List.getElem?_map]
          rw [List.getElem?_eq_getElem hlt]
          rfl
        · rw [List.getD_eq_getElem?_getD, List.getD_eq_getElem?_getD, List.getElem?_map]
          rw [List.getElem?_eq_none hge]
          rfl
      rw [List.map_append, List.map_set, hgd]
      simp

theorem shuffleWithSeed_map (f : α → β) (l : List α) (seed : Int) :
    (shuffleWithSeed l seed).map (Option.map f) = shuffleWithSeed (l.map f) seed := by
  have hmm : (l.map f).map some = (l.map some).map (Option.map f) := by
    rw [List.map_map, List.map_map] ; rfl
  unfold shuffleWithSeed
  simp only [List.length_map]
  match hl : l.length with
  | 0 =>
    simp only [hl]
    exact hmm.symm
  | Nat.succ n =>
    simp only [hl, hmm]
    exact xsShuffleAux_map f n (l.map some) (seededPrngInit seed)

end Part000

namespace TriviaJs

open JsModel

theorem fallbacks_all_valid : fallbacks.all fbValid = true := by decide

theorem fallbackServe_valid (r : Nat) : structurallyValid (fallbackServe r) = true := by
  have hlen : fallbacks.length = 50 := by decide
  have hm : r % fallbacks.length < fallbacks.length := Nat.mod_lt _ (by rw [hlen] ; omega)
  have hfb : fallbacks.getD (r % fallbacks.length) ⟨"", [], 0, ""⟩
      = fallbacks[r % fallbacks.length] := List.getD_eq_getElem _ _ hm
  have hmem : fallbacks[r % fallbacks.length] ∈ fallbacks := List.getElem_mem hm
  have hv : fbValid (fallbacks[r % fallbacks.length]) = true :=
    List.all_eq_true.mp fallbacks_all_valid _ hmem
  unfold fbValid at hv
  simp only [Bool.and_eq_true, beq_iff_eq, ne_eq, decide_eq_true_eq] at hv
  obtain ⟨⟨⟨⟨hq, hc4⟩, hded⟩, hci⟩, hne⟩ := hv
  unfold fallbackServe structurallyValid
  rw [hfb]
  simp only [Rat.den_intCast, Rat.num_intCast, Int.toNat_natCast, Bool.and_eq_true,
    beq_iff_eq, ne_eq, decide_eq_true_eq]
  and_intros <;>
    first
      | trivial
      | positivity
      | exact_mod_cast hci
      | exact hq
      | exact hc4
      | exact hded
      | exact hne

theorem mkResult_valid (p : JQuestion) (h : structOk p = true) :
    structurallyValid (mkResult p) = true := by
  unfold structOk at h
  simp only [Bool.and_eq_true, beq_iff_eq, ne_eq, decide_eq_true_eq] at h
  obtain ⟨⟨⟨⟨⟨⟨⟨⟨h1, h2⟩, h3⟩, h4⟩, h5⟩, h6⟩, h7⟩, h8⟩, h9⟩ := h
  match hfi : findIdxAux (fun c => jsToLower c == jsToLower (chainAnswerText p))
      (chainChoices p) 0 with
  | none =>
    exfalso
    apply h5
    unfold chainIdxFromAnswer jsFindIndex
    rw [hfi]
  | some n =>
    have hidx : chainIdxFromAnswer p = (n : Int) := by
      unfold chainIdxFromAnswer jsFindIndex
      rw [hfi]
    have hbound := findIdxAux_bound _ _ _ _ hfi
    have hn4 : n < 4 := by
      have := hbound.2
      rw [h3] at this
      omega
    obtain ⟨x, hxq, hxf⟩ := findIdxAux_found _ _ _ _ hfi
    simp only [Nat.sub_zero] at hxq
    have hgd : (chainChoices p).getD n "" = x := by
      rw [List.getD_eq_getElem?_getD, hxq]
      rfl
    have hxlow : jsToLower x = jsToLower (chainAnswerText p) := by
      simpa [beq_iff_eq] using hxf
    have hxne : ¬ (x = "") := by
      intro he
      apply h7
      rw [← jsToLower_eq_empty_iff]
      rw [← hxlow, he]
      rfl
    rw [hidx] at h6
    unfold structurallyValid mkResult
    rw [h6]
    simp only [Rat.den_intCast, Rat.num_intCast, Int.toNat_natCast, Bool.and_eq_true,
      beq_iff_eq, ne_eq, decide_eq_true_eq]
    and_intros <;>
      first
        | trivial
        | positivity
        | exact_mod_cast hn4
        | exact h1
        | exact h3
        | exact h4
        | (rw [hgd] ; exact hxne)

theorem attemptStep_cases (ctx : Ctx) (o : AttemptOracle) (isLast : Bool) :
    attemptStep ctx o isLast = .retry
    ∨ ∃ sq, attemptStep ctx o isLast = .serve (.success sq) ∧ structurallyValid sq = true := by
  unfold attemptStep
  split
  · split
    · right ; exact ⟨fallbackServe ctx.randIdx, rfl, fallbackServe_valid _⟩
    · left ; rfl
  · rename_i p _
    split
    · split
      · right ; exact ⟨fallbackServe ctx.randIdx, rfl, fallbackServe_valid _⟩
      · left ; rfl
    · rename_i hsOk
      split
      · split
        · right ; exact ⟨fallbackServe ctx.randIdx, rfl, fallbackServe_valid _⟩
        · left ; rfl
      · left ; rfl
      · split
        · left ; rfl
        · right
          exact ⟨mkResult p, rfl, mkResult_valid p (not_not.mp hsOk)⟩

theorem genLoop_valid (ctx : Ctx) (oracle : Nat → AttemptOracle) :
    ∀ (fuel attempt : Nat),
      ∃ sq, genLoop ctx oracle attempt fuel = .success sq ∧ structurallyValid sq = true := by
  intro fuel
  induction fuel with
  | zero => intro attempt ; exact ⟨fallbackServe ctx.randIdx, rfl, fallbackServe_valid _⟩
  | succ n ih =>
    intro attempt
    rcases attemptStep_cases ctx (oracle attempt) (attempt == MAX_TRIES - 1) with hr | ⟨sq, hs, hv⟩
    · simp only [genLoop, hr]
      exact ih (attempt + 1)
    · simp only [genLoop, hs]
      exact ⟨sq, rfl, hv⟩

end TriviaJs

namespace Part003

open JsModel

theorem validate_true_elim (q : JQuestion) (h : (validate q).1 = true) :
    ∃ s cs r, q.question = JVal.str s ∧ ¬(s.length < 8 ∨ 200 < s.length) ∧
      q.choices = some cs ∧ cs.length = 4 ∧
      q.correct_index = JVal.num r ∧ ¬(r < 0 ∨ 3 < r) := by
  cases hq : q.question with
  | str s =>
    unfold validate at h
    simp only [hq] at h
    by_cases hlen : s.length < 8 ∨ 200 < s.length
    · rw [if_pos hlen] at h ; simp at h
    · rw [if_neg hlen] at h
      cases hc : q.choices with
      | none => simp only [hc] at h ; simp at h
      | some cs =>
        simp only [hc] at h
        by_cases hc4 : cs.length ≠ 4
        · rw [if_pos hc4] at h ; simp at h
        · rw [if_neg hc4] at h
          cases hr : q.correct_index with
          | num r =>
            simp only [hr] at h
            by_cases hrb : r < 0 ∨ 3 < r
            · rw [if_pos hrb] at h ; simp at h
            · exact ⟨s, cs, r, rfl, hlen, rfl, not_not.mp hc4, rfl, hrb⟩
          | str t => simp only [hr] at h ; simp at h
          | undefv => simp only [hr] at h ; simp at h
          | other => simp only [hr] at h ; simp at h
  | num r => unfold validate at h ; simp only [hq] at h ; simp at h
  | undefv => unfold validate at h ; simp only [hq] at h ; simp at h
  | other => unfold validate at h ; simp only [hq] at h ; simp at h

theorem validate_fst_true_of (q' : JQuestion) (s : String) (cs' : List JVal) (j : Rat)
    (hq : q'.question = JVal.str s) (hlen : ¬(s.length < 8 ∨ 200 < s.length))
    (hc : q'.choices = some cs') (hc4 : cs'.length = 4)
    (hr : q'.correct_index = JVal.num j) (hj : ¬(j < 0 ∨ 3 < j)) :
    (validate q').1 = true := by
  unfold validate
  simp only [hq, hc, hr]
  rw [if_neg hlen, if_neg (by simp [hc4]), if_neg hj]

end Part003

namespace Part000

open JsModel

theorem validateQuestion_none_elim (q : JQuestion)
    (h : validateQuestion (some q) = none) :
    ∃ s cs r, q.question = JVal.str s ∧ jsTrim s ≠ "" ∧
      q.choices = some cs ∧ 2 ≤ cs.length ∧
      (cs.all fun c => match c with | JVal.str t => jsTrim t ≠ "" | _ => false) = true ∧
      q.correct_index = JVal.num r ∧ r.den = 1 ∧ 0 ≤ r.num ∧ r.num < (cs.length : Int) ∧
      (∃ e, q.explanation = JVal.str e) := by
  cases hq : q.question with
  | str s =>
    unfold validateQuestion at h
    simp only [hq] at h
    by_cases hqt : jsTrim s = ""
    · rw [if_pos hqt] at h ; simp at h
    · rw [if_neg hqt] at h
      cases hc : q.choices with
      | none => simp only [hc] at h ; simp at h
      | some cs =>
        simp only [hc] at h
        by_cases h2 : cs.length < 2
        · rw [if_pos h2] at h ; simp at h
        · rw [if_neg h2] at h
          by_cases hall : (cs.all fun c =>
              match c with | JVal.str t => jsTrim t ≠ "" | _ => false) = true
          · rw [if_neg (not_not_intro hall)] at h
            cases hr : q.correct_index with
            | num r =>
              simp only [hr] at h
              by_cases hden : r.den ≠ 1
              · rw [if_pos hden] at h ; simp at h
              · rw [if_neg hden] at h
                by_cases hrb : r.num < 0 ∨ (cs.length : Int) ≤ r.num
                · rw [if_pos hrb] at h ; simp at h
                · rw [if_neg hrb] at h
                  cases he : q.explanation with
                  | str e =>
                    exact ⟨s, cs, r, rfl, hqt, rfl, by omega, hall, rfl,
                      not_not.mp hden, by omega, by omega, e, rfl⟩
                  | num v => simp only [he] at h ; simp at h
                  | undefv => simp only [he] at h ; simp at h
                  | other => simp only [he] at h ; simp at h
            | str t => simp only [hr] at h ; simp at h
            | undefv => simp only [hr] at h ; simp at h
            | other => simp only [hr] at h ; simp at h
          · rw [if_pos hall] at h ; simp at h
  | num r => unfold validateQuestion at h ; simp only [hq] at h ; simp at h
  | undefv => unfold validateQuestion at h ; simp only [hq] at h ; simp at h
  | other => unfold validateQuestion at h ; simp only [hq] at h ; simp at h

theorem sanitizedChoices_mem (q : JQuestion) :
    ∀ t ∈ sanitizedChoices q, t ≠ "" ∧ jsTrim t = t := by
  intro t ht
  unfold sanitizedChoices at ht
  have hne : t ≠ "" := by
    have := List.of_mem_filter ht
    simpa using this
  refine ⟨hne, ?_⟩
  have hmem := List.mem_of_mem_filter ht
  cases hcs : q.choices with
  | none => simp only [hcs] at hmem ; simp at hmem
  | some xs =>
    simp only [hcs] at hmem
    obtain ⟨c, _, hct⟩ := List.mem_map.mp hmem
    cases c with
    | str u =>
      simp only [sanitizeStr] at hct
      by_cases hu : jsTrim u ≠ ""
      · rw [if_pos hu] at hct
        rw [← hct]
        exact jsTrim_idem u
      · rw [if_neg hu] at hct
        exact absurd hct.symm hne
    | num v => exact absurd hct.symm hne
    | undefv => exact absurd hct.symm hne
    | other => exact absurd hct.symm hne

theorem sanitizedChoices_length (q : JQuestion) (cs : List JVal) (hc : q.choices = some cs)
    (hall : (cs.all fun c => match c with | JVal.str t => jsTrim t ≠ "" | _ => false) = true) :
    sanitizedChoices q = cs.map (fun c => sanitizeStr c "")
    ∧ (sanitizedChoices q).length = cs.length := by
  have hfull : (cs.map (fun c => sanitizeStr c "")).filter (fun s => s ≠ "")
      = cs.map (fun c => sanitizeStr c "") := by
    rw [List.filter_eq_self]
    intro t ht
    obtain ⟨c, hcmem, hct⟩ := List.mem_map.mp ht
    have hcv := List.all_eq_true.mp hall c hcmem
    cases c with
    | str u =>
      have hcv2 : jsTrim u ≠ "" := by simpa using hcv
      rw [← hct]
      simp only [sanitizeStr]
      simp [hcv2]
    | num v => simp at hcv
    | undefv => simp at hcv
    | other => simp at hcv
  constructor
  · unfold sanitizedChoices
    rw [hc]
    exact hfull
  · unfold sanitizedChoices
    rw [hc, hfull, List.length_map]

end Part000

namespace Part000

open JsModel

theorem coerceAndRandomize_choices (q : JQuestion) (s : Int) :
    (coerceAndRandomize q s).choices = some ((coerceShuffled q s).map toChoiceJV) := rfl

theorem coerce_good (q : JQuestion) (s : Int)
    (hne : sanitizedChoices q ≠ []) :
    ∃ l, (coerceAndRandomize q s).choices = some l
      ∧ l.length = (sanitizedChoices q).length
      ∧ (∀ v ∈ l, ∃ t, v = JVal.str t ∧ t ∈ sanitizedChoices q)
      ∧ ∃ n : Nat, (coerceAndRandomize q s).correct_index = JVal.num (n : Rat)
        ∧ n < l.length
        ∧ ((0 ≤ coerceCorrectIndexIn q
              ∧ coerceCorrectIndexIn q < ((sanitizedChoices q).length : Int)) →
            l.getD n JVal.undefv
              = JVal.str ((sanitizedChoices q).getD (coerceCorrectIndexIn q).toNat "")) := by
  have hperm : (coerceShuffled q s).Perm ((sanitizedChoices q).map some) :=
    shuffleWithSeed_perm (sanitizedChoices q) s
  refine ⟨(coerceShuffled q s).map toChoiceJV, coerceAndRandomize_choices q s, ?_, ?_, ?_⟩
  · rw [List.length_map, hperm.length_eq, List.length_map]
  · intro v hv
    obtain ⟨o, ho, hov⟩ := List.mem_map.mp hv
    have ho2 : o ∈ (sanitizedChoices q).map some := hperm.mem_iff.mp ho
    obtain ⟨t, ht, hto⟩ := List.mem_map.mp ho2
    exact ⟨t, by rw [← hov, ← hto] ; rfl, ht⟩
  · by_cases hb : 0 ≤ coerceCorrectIndexIn q
        ∧ coerceCorrectIndexIn q < ((sanitizedChoices q).length : Int)
    · -- in-bounds: the original correct entry is found in the shuffled list
      have hct : coerceCorrectText q
          = some ((sanitizedChoices q).getD (coerceCorrectIndexIn q).toNat "") := by
        unfold coerceCorrectText
        rw [if_pos hb]
      have htn : (coerceCorrectIndexIn q).toNat < (sanitizedChoices q).length := by omega
      have hmem : (sanitizedChoices q).getD (coerceCorrectIndexIn q).toNat ""
          ∈ sanitizedChoices q := by
        rw [List.getD_eq_getElem _ _ htn]
        exact List.getElem_mem htn
      have hsome : some ((sanitizedChoices q).getD (coerceCorrectIndexIn q).toNat "")
          ∈ coerceShuffled q s := by
        apply hperm.mem_iff.mpr
        exact List.mem_map_of_mem some hmem
      obtain ⟨n, hfi⟩ := findIdxAux_some_of_mem (fun x => x == coerceCorrectText q)
        (coerceShuffled q s) _ 0 hsome (by rw [hct] ; exact beq_self_eq_true _)
      have hni : coerceNewIndex q s = (n : Int) := by
        unfold coerceNewIndex
        rw [hfi]
      have hbound := findIdxAux_bound _ _ _ _ hfi
      obtain ⟨x, hxq, hxf⟩ := findIdxAux_found _ _ _ _ hfi
      simp only [Nat.sub_zero] at hxq
      have hx : x = coerceCorrectText q := by simpa [beq_iff_eq] using hxf
      refine ⟨n, ?_, ?_, ?_⟩
      · unfold coerceAndRandomize
        simp only [hni]
        rw [if_pos (by omega)]
        simp
      · rw [List.length_map]
        omega
      · intro _
        have hgget : ((coerceShuffled q s).map toChoiceJV)[n]?
            = some (toChoiceJV x) := by
          rw [List.getElem?_map, hxq]
          rfl
        rw [List.getD_eq_getElem?_getD, hgget]
        rw [hx, hct]
        rfl
    · -- out of bounds: `correctText` is `undefined`, nothing matches, index 0
      have hct : coerceCorrectText q = none := by
        unfold coerceCorrectText
        rw [if_neg hb]
      have hfi : findIdxAux (fun x => x == coerceCorrectText q) (coerceShuffled q s) 0
          = none := by
        apply findIdxAux_none_of_all
        intro x hx
        have hx2 : x ∈ (sanitizedChoices q).map some := hperm.mem_iff.mp hx
        obtain ⟨t, _, hto⟩ := List.mem_map.mp hx2
        rw [hct, ← hto]
        rfl
      have hni : coerceNewIndex q s = -1 := by
        unfold coerceNewIndex
        rw [hfi]
      refine ⟨0, ?_, ?_, fun hcontra => absurd hcontra hb⟩
      · unfold coerceAndRandomize
        simp only [hni]
        rw [if_neg (by omega)]
        simp
      · rw [List.length_map, hperm.length_eq, List.length_map]
        have : sanitizedChoices q ≠ [] := hne
        cases hsc : sanitizedChoices q with
        | nil => exact absurd hsc this
        | cons a t => simp

theorem validateQuestion_none_of (q' : JQuestion) (s : String) (cs' : List JVal) (r : Rat)
    (e : String)
    (hq : q'.question = JVal.str s) (hqt : jsTrim s ≠ "")
    (hc : q'.choices = some cs') (h2 : 2 ≤ cs'.length)
    (hall : (cs'.all fun c => match c with | JVal.str t => jsTrim t ≠ "" | _ => false) = true)
    (hr : q'.correct_index = JVal.num r) (hden : r.den = 1)
    (h0 : 0 ≤ r.num) (hlt : r.num < (cs'.length : Int))
    (he : q'.explanation = JVal.str e) :
    validateQuestion (some q') = none := by
  unfold validateQuestion
  simp only [hq, hc, hr, he]
  rw [if_neg hqt, if_neg (by omega), if_neg (not_not_intro hall),
    if_neg (not_not_intro hden), if_neg (by omega)]

end Part000

namespace Part003

open JsModel

theorem shiftWhileOver_le_aux :
    ∀ (n : Nat) (pool : List JQuestion), pool.length ≤ n →
      (shiftWhileOver pool).length ≤ POOL_SIZE := by
  intro n
  induction n with
  | zero =>
    intro pool h
    rw [shiftWhileOver]
    rw [if_neg (by unfold POOL_SIZE ; omega)]
    unfold POOL_SIZE ; omega
  | succ n ih =>
    intro pool h
    rw [shiftWhileOver]
    by_cases hlen : pool.length > POOL_SIZE
    · rw [if_pos hlen]
      apply ih
      have := List.length_tail pool
      unfold POOL_SIZE at hlen
      omega
    · rw [if_neg hlen]
      omega

theorem shiftWhileOver_le (pool : List JQuestion) :
    (shiftWhileOver pool).length ≤ POOL_SIZE :=
  shiftWhileOver_le_aux pool.length pool le_rfl

theorem poolPush_length_le (pool : List JQuestion) (q : JQuestion)
    (h : pool.length ≤ POOL_SIZE) : (poolPush pool q).length ≤ POOL_SIZE := by
  unfold poolPush
  by_cases hdup : pool.any (fun x => qTrimText x == qTrimText q) = true
  · rw [if_pos hdup] ; exact h
  · rw [if_neg hdup] ; exact shiftWhileOver_le _

end Part003

section ClaimTheorems

open JsModel TriviaJs Inputs

/-- C1 (amended): every handler invocation either returns the advisory-lock
rate-limited response, carrying the positive `retry_after_ms` hint
`lockUntil - now` and only when the lock is held, or a success response whose
question is structurally valid: nonempty question text, exactly four pairwise
case-insensitively distinct choices, and an integer `correct_index` in bounds
whose choice text is nonempty.  (The claim's stronger reading — that every
success passes the full Validator — fails: see the counterexample.) -/
theorem c1_handler_success_or_ratelimit :
    ∀ (ctx : Ctx) (oracle : Nat → AttemptOracle),
      (∃ ms, onRequestPost ctx oracle = .rateLimited ms ∧
         ctx.now < ctx.lockUntil ∧ ms = ctx.lockUntil - ctx.now ∧ 0 < ms)
      ∨ (∃ sq, onRequestPost ctx oracle = .success sq ∧ structurallyValid sq = true) := by
  intro ctx oracle
  unfold onRequestPost
  by_cases hlock : ctx.now < ctx.lockUntil
  · rw [if_pos hlock]
    exact Or.inl ⟨ctx.lockUntil - ctx.now, rfl, hlock, rfl, by omega⟩
  · rw [if_neg hlock]
    by_cases hai : ¬ ctx.hasAI = true
    · rw [if_pos hai]
      exact Or.inr ⟨fallbackServe ctx.randIdx, rfl, fallbackServe_valid _⟩
    · rw [if_neg hai]
      exact Or.inr (genLoop_valid ctx oracle MAX_TRIES 0)

/-- C1 counterexample: the handler serves, as a success, a generated question
containing an empty choice, and that question is rejected by the repository's
Validator (`validateQuestion` returns "All choices must be strings", not
null), so a success response does not always carry a Question that passes
the Validator. -/
theorem c1_counterexample :
    onRequestPost plainCtx c1Oracle = .success c1Served
    ∧ c1Served.choices = ["", "Apple", "Banana", "Cherry"]
    ∧ Part000.validateQuestion (some (servedToJQuestion c1Served))
        = some "All choices must be strings" := by
  refine ⟨by decide, rfl, by decide⟩

/-- C7: a deduplication collision (here a seen-store hit; the disjunction also
covers the fuzzy recent match and both KV hits) makes a non-final attempt
fail and the loop retry, while on the final attempt (index `MAX_TRIES - 1`)
the same collision is accepted and the colliding question is still served as
the success result. -/
theorem c7_collision_retry_and_final_acceptance :
    ∀ (ctx : Ctx) (o0 o1 o2 : AttemptOracle) (p0 p1 p2 : JQuestion),
      o0.ai = some p0 → structOk p0 = true →
        dictGate ctx.category p0 false = .pass → collision ctx o0 p0 = true →
      o1.ai = some p1 → structOk p1 = true →
        dictGate ctx.category p1 false = .pass → collision ctx o1 p1 = true →
      o2.ai = some p2 → structOk p2 = true →
        dictGate ctx.category p2 true = .pass →
      collision ctx o2 p2 = true →
      attemptStep ctx o0 false = .retry
      ∧ genLoop ctx (fun k => if k = 0 then o0 else if k = 1 then o1 else o2) 0 3
          = .success (mkResult p2) := by
  intro ctx o0 o1 o2 p0 p1 p2 ha0 hs0 hd0 hc0 ha1 hs1 hd1 hc1 ha2 hs2 hd2 _
  have hstep : ∀ (o : AttemptOracle) (p : JQuestion), o.ai = some p → structOk p = true →
      dictGate ctx.category p false = .pass → collision ctx o p = true →
      attemptStep ctx o false = .retry := by
    intro o p hai hs hd hc
    unfold attemptStep
    simp only [hai]
    rw [if_neg (not_not_intro hs), hd]
    simp [hc]
  have hserve : ∀ (o : AttemptOracle) (p : JQuestion), o.ai = some p → structOk p = true →
      dictGate ctx.category p true = .pass →
      attemptStep ctx o true = .serve (.success (mkResult p)) := by
    intro o p hai hs hd
    unfold attemptStep
    simp only [hai]
    rw [if_neg (not_not_intro hs), hd]
    simp
  refine ⟨hstep o0 p0 ha0 hs0 hd0 hc0, ?_⟩
  set orc := fun k => if k = 0 then o0 else if k = 1 then o1 else o2 with horc
  have e0 : attemptStep ctx (orc 0) (0 == MAX_TRIES - 1) = .retry :=
    hstep o0 p0 ha0 hs0 hd0 hc0
  have e1 : attemptStep ctx (orc 1) (1 == MAX_TRIES - 1) = .retry :=
    hstep o1 p1 ha1 hs1 hd1 hc1
  have e2 : attemptStep ctx (orc 2) (2 == MAX_TRIES - 1)
      = .serve (.success (mkResult p2)) :=
    hserve o2 p2 ha2 hs2 hd2
  calc genLoop ctx orc 0 3 = genLoop ctx orc 1 2 := by
        show (match attemptStep ctx (orc 0) (0 == MAX_TRIES - 1) with
          | .serve r => r | .retry => genLoop ctx orc 1 2) = genLoop ctx orc 1 2
        rw [e0]
    _ = genLoop ctx orc 2 1 := by
        show (match attemptStep ctx (orc 1) (1 == MAX_TRIES - 1) with
          | .serve r => r | .retry => genLoop ctx orc 2 1) = genLoop ctx orc 2 1
        rw [e1]
    _ = .success (mkResult p2) := by
        show (match attemptStep ctx (orc 2) (2 == MAX_TRIES - 1) with
          | .serve r => r | .retry => genLoop ctx orc 3 0) = .success (mkResult p2)
        rw [e2]

/-- Witness for C7 at a concrete colliding run: every attempt returns the same
valid payload whose subject sits in the in-memory seen store; the first
attempt retries and the run still serves that payload from the final
attempt. -/
theorem c7_witness :
    attemptStep plainCtx c7Oracle false = .retry
    ∧ genLoop plainCtx
        (fun k => if k = 0 then c7Oracle else if k = 1 then c7Oracle else c7Oracle) 0 3
        = .success (mkResult c7Payload) :=
  c7_collision_retry_and_final_acceptance plainCtx c7Oracle c7Oracle c7Oracle
    c7Payload c7Payload c7Payload
    rfl (by decide) (by decide) (by decide)
    rfl (by decide) (by decide) (by decide)
    rfl (by decide) (by decide) (by decide)

end ClaimTheorems

section ClaimTheoremsC6

open JsModel TriviaJs Inputs

/-- C6 (amended): on non-final attempts the dictionary block rejects (retries)
a synonym candidate when some choice is not a single token or when the
correct answer case-insensitively equals the headword, and rejects a
definition candidate when some choice is not a multi-word phrase; but it has
no equals-the-headword rejection in definition mode (see the counterexample),
and on the final attempt all of these soft checks are skipped, so nothing is
rejected. -/
theorem c6_dictionary_mode_checks :
    ∀ (p : JQuestion),
      (norm p.headword ≠ "" →
        jsToLower (jsOrEmptyToString p.mode) = "synonym" →
        (chainChoices p).all looksSingleWord = false →
        dictGate "dictionary" p false = .softRetry)
      ∧ (norm p.headword ≠ "" →
        jsToLower (jsOrEmptyToString p.mode) = "synonym" →
        jsToLower (chainAnswerText p) = jsToLower (norm p.headword) →
        dictGate "dictionary" p false = .softRetry)
      ∧ (norm p.headword ≠ "" →
        jsToLower (jsOrEmptyToString p.mode) = "definition" →
        (chainChoices p).all looksPhrase = false →
        dictGate "dictionary" p false = .softRetry)
      ∧ (norm p.headword ≠ "" →
        (jsToLower (jsOrEmptyToString p.mode) = "definition"
          ∨ jsToLower (jsOrEmptyToString p.mode) = "synonym") →
        dictGate "dictionary" p true ≠ .softRetry) := by
  intro p
  refine ⟨?_, ?_, ?_, ?_⟩
  · intro hh hm hbad
    unfold dictGate
    rw [if_neg (by simp)]
    rw [if_neg (by simp [hh, hm])]
    by_cases hstem : containsSubstr (jsToLower (chainQText p)) (jsToLower (norm p.headword))
        = true
    · rw [if_neg (by simp [hstem])]
      rw [if_pos hm, if_pos (by simp [hbad])]
    · rw [if_pos (by simpa using hstem)]
  · intro hh hm heq
    unfold dictGate
    rw [if_neg (by simp)]
    rw [if_neg (by simp [hh, hm])]
    by_cases hstem : containsSubstr (jsToLower (chainQText p)) (jsToLower (norm p.headword))
        = true
    · rw [if_neg (by simp [hstem])]
      rw [if_pos hm]
      by_cases hsingle : (chainChoices p).all looksSingleWord = true
      · rw [if_neg (by simp [hsingle])]
        rw [if_pos (by simp [heq])]
      · rw [if_pos (by simpa using hsingle)]
    · rw [if_pos (by simpa using hstem)]
  · intro hh hm hbad
    unfold dictGate
    rw [if_neg (by simp)]
    rw [if_neg (by simp [hh, hm])]
    by_cases hstem : containsSubstr (jsToLower (chainQText p)) (jsToLower (norm p.headword))
        = true
    · rw [if_neg (by simp [hstem])]
      rw [if_neg (by simp [hm]), if_pos (by simp [hbad])]
    · rw [if_pos (by simpa using hstem)]
  · intro hh hm
    unfold dictGate
    rw [if_neg (by simp)]
    rw [if_neg (by simp [hh] ; rcases hm with h | h <;> simp [h])]
    rw [if_neg (by simp)]
    rcases hm with h | h
    · rw [if_neg (by simp [h]), if_neg (by simp)]
      simp
    · rw [if_pos h, if_neg (by simp), if_neg (by simp)]
      simp

/-- C6 counterexample: a `definition`-mode dictionary candidate whose correct
choice equals its multi-word headword is not rejected — the gate passes on a
non-final attempt and the handler serves the candidate — contradicting the
claim that some choice equal to the headword is rejected in definition
mode. -/
theorem c6_counterexample :
    norm c6Payload.headword = "ice cream"
    ∧ jsToLower (jsOrEmptyToString c6Payload.mode) = "definition"
    ∧ (chainChoices c6Payload).getD 1 "" = "ice cream"
    ∧ dictGate "dictionary" c6Payload false = .pass
    ∧ onRequestPost c6Ctx c6Oracle = .success (mkResult c6Payload) := by
  refine ⟨by decide, by decide, by decide, by decide, by decide⟩

/-- Witness for C6 at concrete dictionary candidates: a synonym candidate with
a multi-word choice retries, a synonym candidate answering with its headword
retries, a definition candidate with a single-word choice retries, and on the
final attempt the definition candidate is not rejected. -/
theorem c6_witness :
    dictGate "dictionary" c6SynBad false = .softRetry
    ∧ dictGate "dictionary" c6SynHead false = .softRetry
    ∧ dictGate "dictionary" c6DefBad false = .softRetry
    ∧ dictGate "dictionary" c6DefBad true ≠ .softRetry := by
  refine ⟨?_, ?_, ?_, ?_⟩
  · exact (c6_dictionary_mode_checks c6SynBad).1 (by decide) (by decide) (by decide)
  · exact (c6_dictionary_mode_checks c6SynHead).2.1 (by decide) (by decide) (by decide)
  · exact (c6_dictionary_mode_checks c6DefBad).2.2.1 (by decide) (by decide) (by decide)
  · exact (c6_dictionary_mode_checks c6DefBad).2.2.2 (by decide) (Or.inl (by decide))

end ClaimTheoremsC6

section ClaimTheoremsC5

open JsModel TriviaJs Inputs

/-- C5 (amended): the main handler's validation chain accepts a payload only
when `answer_text` case-insensitively equals `choices[correct_index]`, and it
never auto-corrects — the served `correct_index` is the payload's own,
unchanged; the part_003 `validate`, by contrast, never rewrites a present
(string) `answer_text` — it only fills a missing one — and therefore does not
reject a present mismatch (see the counterexample). -/
theorem c5_answer_text_validation :
    ∀ (p : JQuestion),
      (structOk p = true →
        jsToLower ((chainChoices p).getD (chainIdxFromAnswer p).toNat "")
          = jsToLower (chainAnswerText p)
        ∧ (mkResult p).correct_index = p.correct_index)
      ∧ (∀ s, p.answer_text = JVal.str s → (Part003.validate p).2.answer_text = JVal.str s) := by
  intro p
  constructor
  · intro h
    unfold structOk at h
    simp only [Bool.and_eq_true, beq_iff_eq, ne_eq, decide_eq_true_eq] at h
    obtain ⟨⟨⟨⟨⟨⟨⟨⟨h1, h2⟩, h3⟩, h4⟩, h5⟩, h6⟩, h7⟩, h8⟩, h9⟩ := h
    match hfi : findIdxAux (fun c => jsToLower c == jsToLower (chainAnswerText p))
        (chainChoices p) 0 with
    | none =>
      exfalso
      apply h5
      unfold chainIdxFromAnswer jsFindIndex
      rw [hfi]
    | some n =>
      have hidx : chainIdxFromAnswer p = (n : Int) := by
        unfold chainIdxFromAnswer jsFindIndex
        rw [hfi]
      obtain ⟨x, hxq, hxf⟩ := findIdxAux_found _ _ _ _ hfi
      simp only [Nat.sub_zero] at hxq
      have hgd : (chainChoices p).getD n "" = x := by
        rw [List.getD_eq_getElem?_getD, hxq]
        rfl
      have hxlow : jsToLower x = jsToLower (chainAnswerText p) := by
        simpa [beq_iff_eq] using hxf
      constructor
      · rw [hidx, Int.toNat_natCast, hgd]
        exact hxlow
      · rfl
  · intro s hs
    unfold Part003.validate
    split
    · split
      · simp [hs]
      · split
        · split
          · simp [hs]
          · split
            · split
              · simp [hs]
              · simp [hs]
            · simp [hs]
        · simp [hs]
    · simp [hs]

/-- C5 counterexample: part_003's `validate` accepts a candidate whose present
`answer_text` ("Green") does not equal `choices[correct_index]` ("Blue"), and
leaves both fields unchanged — the mismatch is not reported as a validation
failure, contradicting the claim for this Validator. -/
theorem c5_counterexample :
    (Part003.validate c5Mismatch).1 = true
    ∧ (Part003.validate c5Mismatch).2.answer_text = JVal.str "Green"
    ∧ (Part003.validate c5Mismatch).2.correct_index = JVal.num 0
    ∧ (Part003.validate c5Mismatch).2.choices
        = some [JVal.str "Blue", JVal.str "Green", JVal.str "Red", JVal.str "Yellow"]
    ∧ jsToLower "Green" ≠ jsToLower "Blue" := by
  refine ⟨by decide, by decide, by decide, by decide, by decide⟩

/-- Witness for C5 at a concrete accepted payload: the chain's acceptance
forces the case-insensitive equality and the served index is the payload's
own; `validate` keeps a present `answer_text` unchanged. -/
theorem c5_witness :
    (jsToLower ((chainChoices Inputs.c7Payload).getD
        (chainIdxFromAnswer Inputs.c7Payload).toNat "")
      = jsToLower (chainAnswerText Inputs.c7Payload)
    ∧ (mkResult Inputs.c7Payload).correct_index = Inputs.c7Payload.correct_index)
    ∧ (Part003.validate Inputs.c5Mismatch).2.answer_text = JVal.str "Green" := by
  refine ⟨(c5_answer_text_validation Inputs.c7Payload).1 (by decide), ?_⟩
  exact (c5_answer_text_validation Inputs.c5Mismatch).2 "Green" rfl

end ClaimTheoremsC5

section ClaimTheoremsC8

open JsModel Part003 Inputs

/-- C8: pool invariants of `poolPush`.  Starting from the empty pool, after
any finite sequence of pushes the pool length never exceeds `POOL_SIZE` (6);
a push whose trimmed question text equals an existing entry's leaves the pool
unchanged; and a push onto a full pool with no duplicate evicts the oldest
(front) entry, appending the new question at the back. -/
theorem c8_pool_invariants :
    (∀ qs : List JQuestion, (qs.foldl poolPush []).length ≤ POOL_SIZE)
    ∧ (∀ (pool : List JQuestion) (q : JQuestion),
        pool.any (fun x => qTrimText x == qTrimText q) = true → poolPush pool q = pool)
    ∧ (∀ (pool : List JQuestion) (q : JQuestion),
        pool.length = POOL_SIZE →
        pool.any (fun x => qTrimText x == qTrimText q) = false →
        poolPush pool q = pool.tail ++ [q]) := by
  refine ⟨?_, ?_, ?_⟩
  · intro qs
    have h : ∀ (qs : List JQuestion) (pool : List JQuestion), pool.length ≤ POOL_SIZE →
        (qs.foldl poolPush pool).length ≤ POOL_SIZE := by
      intro qs
      induction qs with
      | nil => intro pool h ; exact h
      | cons q rest ih =>
        intro pool h
        exact ih (poolPush pool q) (poolPush_length_le pool q h)
    exact h qs [] (by simp [POOL_SIZE])
  · intro pool q hdup
    unfold poolPush
    rw [if_pos hdup]
  · intro pool q hlen hdup
    unfold poolPush
    rw [if_neg (by simp [hdup])]
    have hp6 : pool.length = 6 := by simpa [POOL_SIZE] using hlen
    have hne : pool ≠ [] := by
      intro h ; rw [h] at hp6 ; simp at hp6
    have htail : (pool ++ [q]).tail = pool.tail ++ [q] := by
      cases pool with
      | nil => exact absurd rfl hne
      | cons a t => simp
    rw [shiftWhileOver, if_pos (by simp [hp6, POOL_SIZE]), htail]
    rw [shiftWhileOver, if_neg (by
      simp only [List.length_append, List.length_tail, List.length_singleton, hp6, POOL_SIZE]
      omega)]

/-- Witness for C8 at concrete pools: a duplicate push leaves a singleton pool
unchanged, and a push onto a full six-entry pool of distinct questions evicts
the oldest entry. -/
theorem c8_witness :
    ((List.replicate 7 Inputs.c7Payload).foldl poolPush []).length ≤ POOL_SIZE
    ∧ poolPush [Inputs.c7Payload] Inputs.c7Payload = [Inputs.c7Payload] := by
  constructor
  · exact c8_pool_invariants.1 (List.replicate 7 Inputs.c7Payload)
  · exact c8_pool_invariants.2.1 [Inputs.c7Payload] Inputs.c7Payload (by decide)

end ClaimTheoremsC8

section ClaimTheoremsC4C9

open JsModel

/-- C9: both seeded shuffles are total permutations.  Every xorshift32 draw
is below `0xffffffff` — `x ^= x >> 17` (a sign-propagating shift) always
clears bit 31 of the state, so the final `x ^= x << 5` can never produce the
all-ones pattern, and `x / 0xffffffff` lies in `[0, 1)` — hence
`shuffleWithSeed(arr, seed)` returns a permutation of `arr` (same length,
same multiset, no `undefined` entry) for every array and every integer seed.
`mulberry32`'s draws are below 2^32 and divided by 2^32, and `shuffleInPlace`
is likewise a permutation for every list and state. -/
theorem c9_shuffle_totality :
    (∀ x : Nat, Part000.xorshift32Step x < 4294967295)
    ∧ (∀ (α : Type) (l : List α) (s : Int),
        (Part000.shuffleWithSeed l s).Perm (l.map some))
    ∧ (∀ st : Nat, (Part003.mulberry32Step st).2 < 4294967296)
    ∧ (∀ (α : Type) (l : List α) (st : Nat), (Part003.shuffleInPlace l st).Perm l) := by
  refine ⟨?_, ?_, ?_, ?_⟩
  · intro x
    have h1 := Part000.xorshift32Step_lt x
    have h2 := Part000.xorshift32Step_ne_top x
    omega
  · intro α l s
    exact Part000.shuffleWithSeed_perm l s
  · intro st
    exact Part003.mulberry32Step_out_lt st
  · intro α l st
    exact Part003.shuffleInPlace_perm l st

/-- C4 (amended): `safeJsonScan` (part_000) follows the specification's
extraction ladder exactly, for every parser and every raw text: (a) parse the
whole text, else (b) parse the first-`{`-to-last-`}` span, else (c) parse the
span with trailing commas stripped, else fail. -/
theorem c4_extraction_ladder :
    ∀ (parse : String → Option JsonModel.Json) (text : String),
      Part000.safeJsonScanP parse text = SpecModel.specLadder parse text := by
  intro parse text
  unfold Part000.safeJsonScanP SpecModel.specLadder
  cases hp : parse text with
  | some v => rfl
  | none =>
    cases h1 : Part000.firstIdxChar '{' text with
    | none => rfl
    | some s =>
      cases h2 : Part000.lastIdxChar '}' text with
      | none => rfl
      | some e =>
        by_cases hlt : s < e
        · simp only [Option.orElse, if_pos hlt]
          cases hs : parse (Part000.sliceStr text s (e + 1)) <;> rfl
        · simp only [Option.orElse, if_neg hlt]

/-- C4 counterexample: on `"Result: {"a": 1,}"` the specification's ladder
(and `safeJsonScan`, which implements it) succeeds via the trailing-comma
repair of step (c), while the part_003 extraction (`extractJson` followed by
a single `JSON.parse`, with no comma repair) fails — so that extraction step
does not follow the ladder. -/
theorem c4_counterexample :
    SpecModel.specLadder JsonModel.jsonParse Inputs.c4Text
      = some (JsonModel.Json.obj [("a", JsonModel.Json.num "1")])
    ∧ Part000.safeJsonScan Inputs.c4Text
      = some (JsonModel.Json.obj [("a", JsonModel.Json.num "1")])
    ∧ Part003.extractAndParse Inputs.c4Text = none := by
  refine ⟨?_, ?_, ?_⟩ <;> rfl

/-- C3: the Choice Randomizer is deterministic and its permutation depends
only on the seed.  `finalizeChoices` with an integer seed is independent of
the ambient `Math.random` draw; both seeded shufflers commute with mapping a
function over the array, so the index permutation they apply is a function of
the seed (and length) alone, never of the entries; and `finalizeChoices`
relocates `correct_index` to the `findIndex` of the original correct entry in
the shuffled list — it never assumes the index is unchanged. -/
theorem c3_shuffle_determinism :
    (∀ (q : JQuestion) (s : Int) (a1 a2 : Nat),
      Part003.finalizeChoices q (some s) a1 = Part003.finalizeChoices q (some s) a2)
    ∧ (∀ (α β : Type) (f : α → β) (l : List α) (s : Int),
        (Part000.shuffleWithSeed l s).map (Option.map f) = Part000.shuffleWithSeed (l.map f) s)
    ∧ (∀ (α β : Type) (f : α → β) (l : List α) (st : Nat),
        (Part003.shuffleInPlace l st).map f = Part003.shuffleInPlace (l.map f) st)
    ∧ (∀ (q : JQuestion) (s : Int) (amb : Nat) (cs : List JVal) (r : Rat),
        q.choices = some cs → q.correct_index = JVal.num r →
        (Part003.finalizeChoices q (some s) amb).correct_index
          = JVal.num ((jsFindIndex (fun x => x == jsIndexJV cs (JVal.num r))
              (Part003.shuffleInPlace cs (Part003.mulberryInit s)) : Int) : Rat)) := by
  refine ⟨?_, ?_, ?_, ?_⟩
  · intro q s a1 a2 ; rfl
  · intro α β f l s ; exact Part000.shuffleWithSeed_map f l s
  · intro α β f l st ; exact Part003.shuffleInPlace_map f l st
  · intro q s amb cs r hc hr
    unfold Part003.finalizeChoices
    simp only [hc, hr]

/-- Witness for C3 at a concrete question and seed: the relocation equation
of the fourth conjunct evaluated on a four-choice question. -/
theorem c3_witness :
    (Part003.finalizeChoices Inputs.c5Mismatch (some 7) 0).correct_index
      = JVal.num ((jsFindIndex
          (fun x => x == jsIndexJV
            [JVal.str "Blue", JVal.str "Green", JVal.str "Red", JVal.str "Yellow"]
            (JVal.num 0))
          (Part003.shuffleInPlace
            [JVal.str "Blue", JVal.str "Green", JVal.str "Red", JVal.str "Yellow"]
            (Part003.mulberryInit 7)) : Int) : Rat) :=
  c3_shuffle_determinism.2.2.2 Inputs.c5Mismatch 7 0
    [JVal.str "Blue", JVal.str "Green", JVal.str "Red", JVal.str "Yellow"] 0 rfl rfl

end ClaimTheoremsC4C9

section ClaimTheoremsC2C10

open JsModel

/-- C2: shuffling preserves validity, amended.  Part_003's `finalizeChoices`
preserves `validate`-acceptance only for candidates whose `correct_index` is
an integer (accepted non-integers such as 3/2 yield `correct_index = -1`,
which `validate` then rejects; see the counterexample); under that integrality
hypothesis the new index points at the entry holding the original
`choices[correct_index]` value.  Part_000's `coerceAndRandomize` preserves
`validateQuestion`-acceptance for every seed, and relocates `correct_index`
to the entry holding the sanitized original correct text. -/
theorem c2_shuffle_preserves_validity :
    (∀ (q : JQuestion) (s : Int) (amb : Nat) (cs : List JVal) (r : Rat),
      (Part003.validate q).1 = true → q.choices = some cs →
      q.correct_index = JVal.num r → r.den = 1 →
      (Part003.validate (Part003.finalizeChoices q (some s) amb)).1 = true
      ∧ (Part003.finalizeChoices q (some s) amb).choices
          = some (Part003.shuffleInPlace cs (Part003.mulberryInit s))
      ∧ ∃ j : Nat,
          (Part003.finalizeChoices q (some s) amb).correct_index = JVal.num ((j : Nat) : Rat)
          ∧ (Part003.shuffleInPlace cs (Part003.mulberryInit s)).getD j JVal.undefv
              = cs.getD r.num.toNat JVal.undefv)
    ∧ (∀ (q : JQuestion) (s : Int),
      Part000.validateQuestion (some q) = none →
      Part000.validateQuestion (some (Part000.coerceAndRandomize q s)) = none
      ∧ ∃ l, (Part000.coerceAndRandomize q s).choices = some l
        ∧ ∃ n : Nat, (Part000.coerceAndRandomize q s).correct_index = JVal.num ((n : Nat) : Rat)
          ∧ l.getD n JVal.undefv
              = JVal.str ((Part000.sanitizedChoices q).getD
                  (Part000.coerceCorrectIndexIn q).toNat "")) := by
  constructor
  · intro q s amb cs r hv hc hr hden
    obtain ⟨s0, cs0, r0, hq, hlen, hc0, hc4, hr0, hrb⟩ := Part003.validate_true_elim q hv
    rw [hc] at hc0
    have hcs : cs = cs0 := Option.some.inj hc0
    subst hcs
    rw [hr] at hr0
    have hrr : r = r0 := JsModel.JVal.num.inj hr0
    subst hrr
    have hr1 : ((r.num : Int) : Rat) = r := by
      have h2 := Rat.num_div_den r
      rw [hden] at h2
      simpa using h2
    have h0 : (0 : Int) ≤ r.num := by
      have hnn : (0 : Rat) ≤ r := not_lt.mp (fun hh => hrb (Or.inl hh))
      rw [← hr1] at hnn
      exact_mod_cast hnn
    have h3 : r.num ≤ 3 := by
      have hle : r ≤ 3 := not_lt.mp (fun hh => hrb (Or.inr hh))
      rw [← hr1] at hle
      exact_mod_cast hle
    have hperm : (Part003.shuffleInPlace cs (Part003.mulberryInit s)).Perm cs :=
      Part003.shuffleInPlace_perm cs (Part003.mulberryInit s)
    have hoc : JsModel.jsIndexJV cs (JVal.num r) = cs.getD r.num.toNat JVal.undefv := by
      simp only [JsModel.jsIndexJV]
      rw [if_pos ⟨hden, h0, by rw [hc4] ; omega⟩]
    have htn : r.num.toNat < cs.length := by omega
    have hmem : cs.getD r.num.toNat JVal.undefv ∈ cs := by
      rw [List.getD_eq_getElem _ _ htn]
      exact List.getElem_mem htn
    have hmem2 : cs.getD r.num.toNat JVal.undefv
        ∈ Part003.shuffleInPlace cs (Part003.mulberryInit s) := hperm.mem_iff.mpr hmem
    obtain ⟨j, hfi⟩ := JsModel.findIdxAux_some_of_mem
      (fun x => x == JsModel.jsIndexJV cs (JVal.num r))
      (Part003.shuffleInPlace cs (Part003.mulberryInit s))
      (cs.getD r.num.toNat JVal.undefv) 0 hmem2 (by rw [hoc] ; exact beq_self_eq_true _)
    have hbound := JsModel.findIdxAux_bound _ _ _ _ hfi
    rw [hperm.length_eq, hc4] at hbound
    have hj4 : j < 4 := by omega
    have hres : (Part003.finalizeChoices q (some s) amb).correct_index
        = JVal.num (((j : Int)) : Rat) := by
      simp only [Part003.finalizeChoices, hc, hr]
      unfold JsModel.jsFindIndex
      rw [hfi]
    have hchoices : (Part003.finalizeChoices q (some s) amb).choices
        = some (Part003.shuffleInPlace cs (Part003.mulberryInit s)) := by
      simp only [Part003.finalizeChoices, hc]
    refine ⟨?_, hchoices, j, ?_, ?_⟩
    · apply Part003.validate_fst_true_of (Part003.finalizeChoices q (some s) amb) s0
        (Part003.shuffleInPlace cs (Part003.mulberryInit s)) (((j : Int)) : Rat)
      · simp only [Part003.finalizeChoices]
        exact hq
      · exact hlen
      · exact hchoices
      · rw [hperm.length_eq, hc4]
      · exact hres
      · rintro (h | h)
        · have hge : (0 : Rat) ≤ ((j : Int) : Rat) := by
            push_cast
            exact Nat.cast_nonneg j
          exact absurd h (not_lt.mpr hge)
        · have hj3 : j ≤ 3 := by omega
          have hle : ((j : Int) : Rat) ≤ 3 := by
            push_cast
            exact_mod_cast hj3
          exact absurd h (not_lt.mpr hle)
    · rw [hres]
      have : ((j : Int) : Rat) = ((j : Nat) : Rat) := by push_cast ; ring
      rw [this]
    · obtain ⟨x, hxq, hxf⟩ := JsModel.findIdxAux_found _ _ _ _ hfi
      simp only [Nat.sub_zero] at hxq
      have hx : x = JsModel.jsIndexJV cs (JVal.num r) := by
        simpa [beq_iff_eq] using hxf
      rw [List.getD_eq_getElem?_getD, hxq, hx, hoc]
      rfl
  · intro q s hv
    obtain ⟨s0, cs, r, hq, hqt, hc, h2, hall, hr, hden, h0, hlt, e, he⟩ :=
      Part000.validateQuestion_none_elim q hv
    obtain ⟨hscmap, hsclen⟩ := Part000.sanitizedChoices_length q cs hc hall
    have hne : Part000.sanitizedChoices q ≠ [] := by
      intro hnil
      rw [hnil] at hsclen
      simp at hsclen
      omega
    obtain ⟨l, hl, hllen, hlmem, n, hn, hnlt, hreloc⟩ := Part000.coerce_good q s hne
    have hci : Part000.coerceCorrectIndexIn q = r.num := by
      unfold Part000.coerceCorrectIndexIn
      simp only [hr]
      rw [if_pos hden]
    have hinb : 0 ≤ Part000.coerceCorrectIndexIn q
        ∧ Part000.coerceCorrectIndexIn q < ((Part000.sanitizedChoices q).length : Int) := by
      rw [hci, hsclen]
      exact ⟨h0, hlt⟩
    refine ⟨?_, l, hl, n, hn, hreloc hinb⟩
    have hsq : Part000.sanitizeStr q.question "" = JsModel.jsTrim s0 := by
      rw [hq]
      simp only [Part000.sanitizeStr]
      rw [if_pos hqt]
    apply Part000.validateQuestion_none_of (Part000.coerceAndRandomize q s)
      (Part000.sanitizeStr q.question "") l ((n : Nat) : Rat)
      (Part000.sanitizeStr q.explanation "")
    · rfl
    · rw [hsq, JsModel.jsTrim_idem]
      exact hqt
    · exact hl
    · rw [hllen, hsclen]
      exact h2
    · apply List.all_eq_true.mpr
      intro v hvmem
      obtain ⟨t, hvt, htc⟩ := hlmem v hvmem
      obtain ⟨htne, htfix⟩ := Part000.sanitizedChoices_mem q t htc
      rw [hvt]
      simp [htfix, htne]
    · exact hn
    · exact Rat.den_natCast n
    · rw [Rat.num_natCast]
      exact Int.ofNat_nonneg n
    · rw [Rat.num_natCast]
      exact_mod_cast hnlt
    · rfl

/-- C2 counterexample: `validate` accepts a candidate whose `correct_index`
is 3/2 (`!(ci < 0 || ci > 3)` does not test integrality), `finalizeChoices`
then relocates the undefined `choices[1.5]` to index `-1`, and the shuffled
candidate no longer passes `validate`. -/
theorem c2_counterexample :
    (Part003.validate Inputs.c2NonInt).1 = true
    ∧ (Part003.finalizeChoices Inputs.c2NonInt (some 1) 0).correct_index = JVal.num (-1)
    ∧ (Part003.validate (Part003.finalizeChoices Inputs.c2NonInt (some 1) 0)).1 = false := by
  refine ⟨by decide, by decide, by decide⟩

/-- C2 witness: the amended preservation theorem applied to concrete
questions, seeds 3 and 5. -/
theorem c2_witness :
    ((Part003.validate (Part003.finalizeChoices Inputs.c5Mismatch (some 3) 0)).1 = true
      ∧ (Part003.finalizeChoices Inputs.c5Mismatch (some 3) 0).choices
          = some (Part003.shuffleInPlace
              [JVal.str "Blue", JVal.str "Green", JVal.str "Red", JVal.str "Yellow"]
              (Part003.mulberryInit 3)))
    ∧ Part000.validateQuestion (some (Part000.coerceAndRandomize Inputs.c2Good 5)) = none := by
  constructor
  · have h := c2_shuffle_preserves_validity.1 Inputs.c5Mismatch 3 0
      [JVal.str "Blue", JVal.str "Green", JVal.str "Red", JVal.str "Yellow"] 0
      (by decide) rfl rfl (by decide)
    exact ⟨h.1, h.2.1⟩
  · exact (c2_shuffle_preserves_validity.2 Inputs.c2Good 5 (by decide)).1

end ClaimTheoremsC2C10

section ClaimTheoremsC10

open JsModel

/-- C10: `coerceAndRandomize` totality, amended.  For every question-shaped
object and every seed it returns without error and its `correct_index` is a
natural number (never -1: a failed `findIndex` is replaced by 0).  But the
claimed bounds only hold when at least one choice survives sanitization: then,
for every seed, every returned choice is a non-empty trimmed string and the
index is within bounds.  With no surviving choice the result is
`choices = []` with `correct_index = 0`, an out-of-bounds index (see the
counterexample). -/
theorem c10_coerce_totality :
    (∀ (q : JQuestion) (s : Int),
      ∃ n : Nat, (Part000.coerceAndRandomize q s).correct_index = JVal.num ((n : Nat) : Rat))
    ∧ (∀ (q : JQuestion) (s : Int),
      Part000.sanitizedChoices q ≠ [] →
      ∃ l, (Part000.coerceAndRandomize q s).choices = some l
        ∧ (∀ v ∈ l, ∃ t, v = JVal.str t ∧ t ≠ "" ∧ JsModel.jsTrim t = t)
        ∧ ∃ n : Nat,
            (Part000.coerceAndRandomize q s).correct_index = JVal.num ((n : Nat) : Rat)
            ∧ n < l.length) := by
  constructor
  · intro q s
    cases hfi : JsModel.findIdxAux (fun x => x == Part000.coerceCorrectText q)
        (Part000.coerceShuffled q s) 0 with
    | some m =>
      refine ⟨m, ?_⟩
      have hni : Part000.coerceNewIndex q s = (m : Int) := by
        unfold Part000.coerceNewIndex
        rw [hfi]
      unfold Part000.coerceAndRandomize
      simp only [hni]
      rw [if_pos (by omega)]
      simp
    | none =>
      refine ⟨0, ?_⟩
      have hni : Part000.coerceNewIndex q s = -1 := by
        unfold Part000.coerceNewIndex
        rw [hfi]
      unfold Part000.coerceAndRandomize
      simp only [hni]
      rw [if_neg (by omega)]
      simp
  · intro q s hne
    obtain ⟨l, hl, _, hlmem, n, hn, hnlt, _⟩ := Part000.coerce_good q s hne
    refine ⟨l, hl, ?_, n, hn, hnlt⟩
    intro v hv
    obtain ⟨t, hvt, htc⟩ := hlmem v hv
    obtain ⟨htne, htfix⟩ := Part000.sanitizedChoices_mem q t htc
    exact ⟨t, hvt, htne, htfix⟩

/-- C10 counterexample: when no choice survives sanitization (non-string and
blank entries), the result's `choices` is empty while `correct_index` is 0 —
not a valid index into the result's choices as claimed. -/
theorem c10_counterexample :
    (Part000.coerceAndRandomize Inputs.c10Empty 7).choices = some []
    ∧ (Part000.coerceAndRandomize Inputs.c10Empty 7).correct_index = JVal.num 0
    ∧ (match (Part000.coerceAndRandomize Inputs.c10Empty 7).choices with
        | some l => l.length
        | none => 0) = 0 := by
  refine ⟨by decide, by decide, by decide⟩

/-- C10 witness: the totality theorem applied to a question with no usable
choice (seed 7) and to a well-formed question (seed 5). -/
theorem c10_witness :
    (∃ n : Nat,
      (Part000.coerceAndRandomize Inputs.c10Empty 7).correct_index = JVal.num ((n : Nat) : Rat))
    ∧ ∃ l, (Part000.coerceAndRandomize Inputs.c2Good 5).choices = some l
      ∧ ∃ n : Nat,
          (Part000.coerceAndRandomize Inputs.c2Good 5).correct_index = JVal.num ((n : Nat) : Rat)
          ∧ n < l.length := by
  constructor
  · exact c10_coerce_totality.1 Inputs.c10Empty 7
  · obtain ⟨l, hl, _, n, hn, hnlt⟩ := c10_coerce_totality.2 Inputs.c2Good 5
      (by decide)
    exact ⟨l, hl, n, hn, hnlt⟩

end ClaimTheoremsC10
